import Mathlib

/-!
Shallow embedding of the commission / wallet / withdrawal core of the
Dhakad-Snazzy quick-commerce backend.

Sources embedded:
* `src/backend/src/services/commissionService.ts`
  (`getSellerCommissionRate`, `getDeliveryBoyCommissionRate`,
   `calculateOrderCommissions`, `distributeCommissions`, `reverseCommissions`)
* `src/backend/src/services/orderService.ts`
  (rate-resolution logic of `createCommissions`)
* `src/backend/src/modules/admin/controllers/adminCommissionController.ts`
  (`processWithdrawal`)

Modelling conventions:
* JS numbers are modelled as rationals (`ℚ`); `Math.round` is `jsRound`
  (floor of `x + 1/2`, which is what `Math.round` computes).
* Mongo collections are lists of records; `findById` is `List.find?` on the
  `id` field; a `doc.save()` that rewrites a found document is a `List.map`
  that replaces the document(s) with the matching id.
* A mongoose session/transaction is modelled by the operation returning the
  new database state on the success path and the unchanged input state on
  every failure (abortTransaction) path.
-/

namespace DS

/-- Commission entity (`models/Commission`): one record per (order, subject). -/
structure Commission where
  order : Nat
  seller : Option Nat
  deliveryBoy : Option Nat
  type : String
  orderAmount : ℚ
  commissionRate : ℚ
  commissionAmount : ℚ
  status : String
  deriving DecidableEq, Repr

/-- OrderItem entity: belongs to one order and one seller. -/
structure OrderItem where
  id : Nat
  order : Nat
  seller : Nat
  product : Nat
  total : ℚ
  deriving DecidableEq, Repr

/-- Order entity: status, item ids, optional delivery partner, subtotal,
optional delivery distance. -/
structure Order where
  id : Nat
  orderNumber : String
  status : String
  items : List Nat
  deliveryBoy : Option Nat
  subtotal : ℚ
  deliveryDistanceKm : Option ℚ
  deriving DecidableEq, Repr

/-- Seller entity.  The backend reads two distinct rate fields:
`commissionRate` (used by `commissionService.getSellerCommissionRate`) and
`commission` (used by `orderService.createCommissions`). -/
structure Seller where
  id : Nat
  commissionRate : Option ℚ
  commission : Option ℚ
  balance : ℚ
  deriving DecidableEq, Repr

/-- Delivery-partner entity. -/
structure Delivery where
  id : Nat
  commissionRate : Option ℚ
  balance : ℚ
  deriving DecidableEq, Repr

/-- Product entity: optional classification references. -/
structure Product where
  id : Nat
  subSubCategory : Option Nat
  subcategory : Option Nat
  category : Option Nat
  deriving DecidableEq, Repr

/-- Category entity (also used for sub-sub-categories, as in the source). -/
structure Category where
  id : Nat
  commissionRate : Option ℚ
  deriving DecidableEq, Repr

/-- SubCategory entity. -/
structure SubCategory where
  id : Nat
  commissionRate : Option ℚ
  deriving DecidableEq, Repr

/-- Immutable wallet ledger entry (`models/WalletTransaction`). -/
structure WalletTransaction where
  subjectId : Nat
  subjectType : String
  amount : ℚ
  type : String
  description : String
  deriving DecidableEq, Repr

/-- Withdrawal request (`models/WithdrawRequest`).  `processedAt` records
whether a processing timestamp has been stamped. -/
structure WithdrawRequest where
  id : Nat
  userId : Nat
  userType : String
  amount : ℚ
  status : String
  remarks : Option String
  processedAt : Bool
  deriving DecidableEq, Repr

/-- AppSettings singleton: delivery pricing mode configuration. -/
structure AppSettings where
  isDistanceBased : Bool
  deliveryBoyKmRate : Option ℚ
  deriving DecidableEq, Repr

/-- The transactional data store: each Mongo collection is a list. -/
structure DB where
  orders : List Order
  orderItems : List OrderItem
  sellers : List Seller
  deliveries : List Delivery
  products : List Product
  categories : List Category
  subCategories : List SubCategory
  commissions : List Commission
  walletTxns : List WalletTransaction
  withdrawRequests : List WithdrawRequest
  settings : Option AppSettings
  deriving DecidableEq, Repr

def findOrder (db : DB) (oid : Nat) : Option Order :=
  db.orders.find? (fun o => o.id == oid)

def findOrderItem (db : DB) (iid : Nat) : Option OrderItem :=
  db.orderItems.find? (fun i => i.id == iid)

def findSeller (db : DB) (sid : Nat) : Option Seller :=
  db.sellers.find? (fun s => s.id == sid)

def findDelivery (db : DB) (did : Nat) : Option Delivery :=
  db.deliveries.find? (fun d => d.id == did)

def findProduct (db : DB) (pid : Nat) : Option Product :=
  db.products.find? (fun p => p.id == pid)

def findCategory (db : DB) (cid : Nat) : Option Category :=
  db.categories.find? (fun c => c.id == cid)

def findSubCategory (db : DB) (cid : Nat) : Option SubCategory :=
  db.subCategories.find? (fun c => c.id == cid)

def findRequest (db : DB) (rid : Nat) : Option WithdrawRequest :=
  db.withdrawRequests.find? (fun r => r.id == rid)

/-- JS `Math.round`: round half up (floor of `x + 1/2`). -/
def jsRound (x : ℚ) : ℤ := ⌊x + 1 / 2⌋

/-- Rounds to 2 decimal places: `Math.round(x * 100) / 100`. -/
def round2 (x : ℚ) : ℚ := (jsRound (x * 100) : ℚ) / 100

/-- Embeds `commissionService.getSellerCommissionRate`: the seller's individual
`commissionRate` field when set (any non-null value, including zero or
negative), else the global default 10; a missing seller record throws inside
the `try`, and the `catch` returns the default 10. -/
def getSellerCommissionRate (db : DB) (sellerId : Nat) : ℚ :=
  match findSeller db sellerId with
  | none => 10
  | some seller =>
    match seller.commissionRate with
    | some r => r
    | none => 10

/-- Embeds `commissionService.getDeliveryBoyCommissionRate`: individual rate when
set, else default 5; missing record falls back to 5 via the `catch`. -/
def getDeliveryBoyCommissionRate (db : DB) (deliveryBoyId : Nat) : ℚ :=
  match findDelivery db deliveryBoyId with
  | none => 5
  | some d =>
    match d.commissionRate with
    | some r => r
    | none => 5

/-- Per-seller accumulator used by `calculateOrderCommissions`
(the JS `Map` entry value). -/
structure SellerCommEntry where
  amount : ℚ
  rate : ℚ
  orderAmount : ℚ
  deriving DecidableEq, Repr

/-- One update of the JS `Map` in `calculateOrderCommissions`: if the seller
key exists, add to its `amount` and `orderAmount` in place (the stored `rate`
stays the one of the first item); else append a new entry (JS `Map` preserves
insertion order). -/
def addItem (m : List (Nat × SellerCommEntry)) (sid : Nat) (t rate : ℚ) :
    List (Nat × SellerCommEntry) :=
  match m with
  | [] => [(sid, ⟨t * rate / 100, rate, t⟩)]
  | (k, e) :: rest =>
    if k == sid then
      (k, { e with amount := e.amount + t * rate / 100,
                   orderAmount := e.orderAmount + t }) :: rest
    else
      (k, e) :: addItem rest sid t rate

/-- One loop iteration over `order.items` in `calculateOrderCommissions`:
a missing OrderItem is skipped (`continue`). -/
def calcStep (db : DB) (m : List (Nat × SellerCommEntry)) (itemId : Nat) :
    List (Nat × SellerCommEntry) :=
  match findOrderItem db itemId with
  | none => m
  | some it => addItem m it.seller it.total (getSellerCommissionRate db it.seller)

/-- The seller-commission map built by `calculateOrderCommissions`,
in insertion order. -/
def sellerCommissionsOf (db : DB) (items : List Nat) :
    List (Nat × SellerCommEntry) :=
  items.foldl (calcStep db) []

/-- Delivery commission value computed by `calculateOrderCommissions`. -/
structure DeliveryComm where
  deliveryBoyId : Nat
  amount : ℚ
  rate : ℚ
  orderAmount : ℚ
  deriving DecidableEq, Repr

/-- The distance-based guard of `calculateOrderCommissions`: yields
`(rate, unrounded amount)` exactly when settings exist, `isDistanceBased` is
true, `deliveryBoyKmRate` is truthy (set and non-zero), and
`deliveryDistanceKm` is truthy and `> 0`. -/
def distanceParams (db : DB) (o : Order) : Option (ℚ × ℚ) :=
  match db.settings with
  | none => none
  | some s =>
    if s.isDistanceBased then
      match s.deliveryBoyKmRate with
      | none => none
      | some r =>
        if r ≠ 0 then
          match o.deliveryDistanceKm with
          | none => none
          | some d => if 0 < d then some (r, d * r) else none
        else none
    else none

/-- Delivery-partner commission of `calculateOrderCommissions`: distance
based when `distanceParams` applies, else percentage of the subtotal; the
final amount is rounded to 2 decimals in both cases, and `orderAmount` is the
distance (`deliveryDistanceKm || 0`) in the distance case, else the subtotal. -/
def deliveryCommOf (db : DB) (o : Order) : Option DeliveryComm :=
  match o.deliveryBoy with
  | none => none
  | some dbid =>
    match distanceParams db o with
    | some (r, amt) =>
      some ⟨dbid, round2 amt, r, o.deliveryDistanceKm.getD 0⟩
    | none =>
      let r := getDeliveryBoyCommissionRate db dbid
      some ⟨dbid, round2 (o.subtotal * r / 100), r, o.subtotal⟩

/-- Result data of `calculateOrderCommissions`. -/
structure CalcResult where
  seller : List (Nat × SellerCommEntry)
  deliveryBoy : Option DeliveryComm
  deriving DecidableEq, Repr

/-- Happy-path body of `calculateOrderCommissions` for a found order. -/
def calcOrder (db : DB) (o : Order) : CalcResult :=
  { seller := sellerCommissionsOf db o.items
    deliveryBoy := deliveryCommOf db o }

/-- Embeds `calculateOrderCommissions(orderId)`: `none` models the
`success: false` result when the order is not found. -/
def calculateOrderCommissions (db : DB) (oid : Nat) : Option CalcResult :=
  (findOrder db oid).map (calcOrder db)

/-- Modelled from the spec: `creditWallet` of `walletManagementService`
(the service file itself is not among the sources; only its callers are).
Per spec section 4.3, within the caller's transaction it appends one
immutable Credit `WalletTransaction` and atomically increments the subject's
cached `balance` (sellers and delivery partners live in separate
collections, selected by the subject type tag). -/
def creditWallet (db : DB) (subjectId : Nat) (subjectType : String)
    (amount : ℚ) (description : String) : DB :=
  { db with
    walletTxns := db.walletTxns ++
      [⟨subjectId, subjectType, amount, "Credit", description⟩]
    sellers :=
      if subjectType == "SELLER" then
        db.sellers.map (fun s =>
          if s.id == subjectId then { s with balance := s.balance + amount } else s)
      else db.sellers
    deliveries :=
      if subjectType == "DELIVERY_BOY" then
        db.deliveries.map (fun d =>
          if d.id == subjectId then { d with balance := d.balance + amount } else d)
      else db.deliveries }

/-- Modelled from the spec: `debitWallet` of `walletManagementService`,
symmetric to `creditWallet` — appends one Debit `WalletTransaction` and
decrements the subject's cached balance.  The spec leaves open whether the
source enforces an InsufficientFunds guard ("see Design Notes for whether
the source enforces this or not"); it is modelled without the guard. -/
def debitWallet (db : DB) (subjectId : Nat) (subjectType : String)
    (amount : ℚ) (description : String) : DB :=
  { db with
    walletTxns := db.walletTxns ++
      [⟨subjectId, subjectType, amount, "Debit", description⟩]
    sellers :=
      if subjectType == "SELLER" then
        db.sellers.map (fun s =>
          if s.id == subjectId then { s with balance := s.balance - amount } else s)
      else db.sellers
    deliveries :=
      if subjectType == "DELIVERY_BOY" then
        db.deliveries.map (fun d =>
          if d.id == subjectId then { d with balance := d.balance - amount } else d)
      else db.deliveries }

/-- Cached balance of a seller (0 when the record is absent). -/
def sellerBalanceOf (db : DB) (sid : Nat) : ℚ :=
  match findSeller db sid with
  | some s => s.balance
  | none => 0

/-- Cached balance of a delivery partner (0 when the record is absent). -/
def deliveryBalanceOf (db : DB) (did : Nat) : ℚ :=
  match findDelivery db did with
  | some d => d.balance
  | none => 0

/-- The Commission document created for one seller entry inside
`distributeCommissions` (status Paid). -/
def sellerRecordOf (oid : Nat) (p : Nat × SellerCommEntry) : Commission :=
  { order := oid, seller := some p.1, deliveryBoy := none, type := "SELLER"
    orderAmount := p.2.orderAmount, commissionRate := p.2.rate
    commissionAmount := p.2.amount, status := "Paid" }

/-- The Commission document created for the delivery partner inside
`distributeCommissions` (status Paid). -/
def deliveryRecordOf (oid : Nat) (dc : DeliveryComm) : Commission :=
  { order := oid, seller := none, deliveryBoy := some dc.deliveryBoyId
    type := "DELIVERY_BOY", orderAmount := dc.orderAmount
    commissionRate := dc.rate, commissionAmount := dc.amount, status := "Paid" }

/-- One iteration of the seller loop in `distributeCommissions`: save the
Commission record, then credit the seller's wallet with the net proceeds
`orderAmount - commissionAmount`. -/
def distSellerStep (oid : Nat) (orderNumber : String) (d : DB)
    (p : Nat × SellerCommEntry) : DB :=
  creditWallet { d with commissions := d.commissions ++ [sellerRecordOf oid p] }
    p.1 "SELLER" (p.2.orderAmount - p.2.amount)
    ("Sale proceeds for order " ++ orderNumber)

/-- The write phase of `distributeCommissions` (after all guards passed):
create and credit each seller commission, then — if present — create the
delivery commission record and credit the delivery partner with the full
commission amount. -/
def applyDistribution (db : DB) (oid : Nat) (o : Order) : DB :=
  let cr := calcOrder db o
  let db1 := cr.seller.foldl (distSellerStep oid o.orderNumber) db
  match cr.deliveryBoy with
  | none => db1
  | some dc =>
    creditWallet { db1 with commissions := db1.commissions ++ [deliveryRecordOf oid dc] }
      dc.deliveryBoyId "DELIVERY_BOY" dc.amount
      ("Commission for order " ++ o.orderNumber)

/-- Structured result of the service operations
(`success` flag plus message, as returned to the caller). -/
structure OpResult where
  success : Bool
  message : String
  deriving DecidableEq, Repr

/-- Embeds `commissionService.distributeCommissions`: guards (order found, status
Delivered, no Commission yet for the order) then the transactional write
phase; every failure aborts the transaction, so the state component of a
failure is the unchanged input state. -/
def distributeCommissions (db : DB) (oid : Nat) : OpResult × DB :=
  match findOrder db oid with
  | none => (⟨false, "Order not found"⟩, db)
  | some o =>
    if o.status == "Delivered" then
      if (db.commissions.filter (fun c => c.order == oid)).isEmpty then
        (⟨true, "Commissions distributed successfully"⟩, applyDistribution db oid o)
      else
        (⟨false, "Commissions already distributed for this order"⟩, db)
    else
      (⟨false, "Commissions can only be distributed for delivered orders"⟩, db)

/-- The subject debited for one commission in `reverseCommissions`:
`commission.type === 'SELLER' ? commission.seller : commission.deliveryBoy`. -/
def reverseSubjectOf (c : Commission) : Option Nat :=
  if c.type == "SELLER" then c.seller else c.deliveryBoy

/-- One iteration of the loop in `reverseCommissions` over the snapshot of
the order's commissions: only a Paid commission is processed, and the debit
is skipped when the subject reference is missing (`if (userId)`). -/
def revStep (d : DB) (c : Commission) : DB :=
  if c.status == "Paid" then
    match reverseSubjectOf c with
    | some uid =>
      debitWallet d uid c.type c.commissionAmount
        "Commission reversal for cancelled order"
    | none => d
  else d

/-- Status rewrite performed by the `commission.save()` calls in
`reverseCommissions`: every Paid commission of the order becomes Cancelled. -/
def cancelPaid (oid : Nat) (c : Commission) : Commission :=
  if c.order == oid && c.status == "Paid" then { c with status := "Cancelled" } else c

/-- Embeds `commissionService.reverseCommissions`: a no-op success when the order
has no commissions; otherwise every Paid commission of the order is set to
Cancelled and its subject debited by `commissionAmount`, atomically. -/
def reverseCommissions (db : DB) (oid : Nat) : OpResult × DB :=
  let comms := db.commissions.filter (fun c => c.order == oid)
  if comms.isEmpty then
    (⟨true, "No commissions to reverse"⟩, db)
  else
    let db1 := { db with commissions := db.commissions.map (cancelPaid oid) }
    (⟨true, "Commissions reversed successfully"⟩, comms.foldl revStep db1)

/-! ### Eager per-item commission path (`orderService.createCommissions`) -/

/-- The repeated truthiness-and-positivity test of
`orderService.createCommissions`: `x.commissionRate && x.commissionRate > 0`
keeps the rate only when it is set and strictly positive. -/
def posRate : Option ℚ → Option ℚ
  | some r => if 0 < r then some r else none
  | none => none

/-- Sub-sub-category override rate reference of a product:
`Category.findById(product.subSubCategory)` then its `commissionRate`. -/
def subSubRate (db : DB) (pid : Nat) : Option ℚ :=
  ((findProduct db pid).bind (fun p => p.subSubCategory)).bind
    (fun cid => (findCategory db cid).bind (fun c => c.commissionRate))

/-- Sub-category override rate reference of a product. -/
def subCatRate (db : DB) (pid : Nat) : Option ℚ :=
  ((findProduct db pid).bind (fun p => p.subcategory)).bind
    (fun cid => (findSubCategory db cid).bind (fun c => c.commissionRate))

/-- Category override rate reference of a product. -/
def catRate (db : DB) (pid : Nat) : Option ℚ :=
  ((findProduct db pid).bind (fun p => p.category)).bind
    (fun cid => (findCategory db cid).bind (fun c => c.commissionRate))

/-- Steps 1–3 of the rate chain in `orderService.createCommissions`:
starting from `commissionRate = 0`, each classification level is consulted
only while the rate is still 0, and only a set, strictly positive override
is taken; 0 means no classification override applied. -/
def classificationRate (db : DB) (pid : Nat) : ℚ :=
  match posRate (subSubRate db pid) with
  | some r => r
  | none =>
    match posRate (subCatRate db pid) with
    | some r => r
    | none =>
      match posRate (catRate db pid) with
      | some r => r
      | none => 0

/-- Full rate chain of `orderService.createCommissions` (steps 1–5): the
classification override when one applied, else the seller's `commission`
field when set and strictly positive, else the global default 10. -/
def eagerCommissionRate (db : DB) (seller : Seller) (pid : Nat) : ℚ :=
  let c := classificationRate db pid
  if c = 0 then
    match posRate seller.commission with
    | some r => r
    | none => 10
  else c

/-- Follows the words of the claim (and spec section 4.1): the resolved rate
is the first positive value among sub-sub-category, sub-category and
category override, then the seller's individual override if positive, then
the global default 10. -/
def claimedPriorityRate (subSub subCat cat sellerOverride : Option ℚ) : ℚ :=
  match posRate subSub with
  | some r => r
  | none =>
    match posRate subCat with
    | some r => r
    | none =>
      match posRate cat with
      | some r => r
      | none =>
        match posRate sellerOverride with
        | some r => r
        | none => 10

/-! ### Withdrawal processing (`adminCommissionController.processWithdrawal`) -/

/-- Result of the admin controller: HTTP status code plus success flag and
message. -/
structure PWResult where
  status : Nat
  success : Bool
  message : String
  deriving DecidableEq, Repr

/-- A `request.save()`: rewrite the stored document(s) with this id. -/
def saveRequest (db : DB) (r : WithdrawRequest) : DB :=
  { db with withdrawRequests :=
      db.withdrawRequests.map (fun q => if q.id == r.id then r else q) }

/-- The pre-transaction phase of `processWithdrawal` (controller lines up to
the status test): read the request and test its status.  This runs BEFORE
`mongoose.startSession()` / `startTransaction()`; `none` means the call
proceeds into the transaction. -/
def pwPrecheck (db : DB) (rid : Nat) : Option PWResult :=
  match findRequest db rid with
  | none => some ⟨404, false, "Request not found"⟩
  | some req =>
    if req.status == "Pending" then none
    else some ⟨400, false, "Request is already processed"⟩

/-- The transactional phase of `processWithdrawal`, operating on the request
snapshot read in the pre-transaction phase.  Approve: set status and
processedAt.  Reject: credit the requester's wallet with the full amount,
then set status, remarks and processedAt.  Any other action keeps the
snapshot unchanged and just saves it back.  Note that the status is NOT
re-read or re-tested inside this phase. -/
def pwApply (db : DB) (req : WithdrawRequest) (action : String)
    (remark : Option String) : DB :=
  if action == "Approve" then
    saveRequest db { req with status := "Approved", processedAt := true }
  else if action == "Reject" then
    let db1 := creditWallet db req.userId req.userType req.amount
      ("Withdrawal Rejected: " ++ toString req.id)
    saveRequest db1 { req with status := "Rejected", remarks := remark,
                               processedAt := true }
  else
    saveRequest db req

/-- Embeds `processWithdrawal` for one isolated call: pre-transaction check, then
the transactional phase; the success response message is
`Withdrawal <action>ed successfully`. -/
def processWithdrawal (db : DB) (rid : Nat) (action : String)
    (remark : Option String) : PWResult × DB :=
  match findRequest db rid with
  | none => (⟨404, false, "Request not found"⟩, db)
  | some req =>
    if req.status == "Pending" then
      (⟨200, true, "Withdrawal " ++ action ++ "ed successfully"⟩,
        pwApply db req action remark)
    else
      (⟨400, false, "Request is already processed"⟩, db)

/-! ### Verification-side views of the computation -/

/-- Sum of the line totals of the (existing) order items of one seller. -/
def sellerItemsTotal (db : DB) (items : List Nat) (sid : Nat) : ℚ :=
  match items with
  | [] => 0
  | i :: rest =>
    (match findOrderItem db i with
     | some it => if it.seller == sid then it.total else 0
     | none => 0) + sellerItemsTotal db rest sid

/-- Accumulated `orderAmount` stored for a seller key in the commission map
(0 when the key is absent). -/
def oaOf (m : List (Nat × SellerCommEntry)) (k : Nat) : ℚ :=
  match m.find? (fun p => p.1 == k) with
  | some p => p.2.orderAmount
  | none => 0

/-- Accumulated commission `amount` stored for a seller key in the
commission map (0 when the key is absent). -/
def amtOf (m : List (Nat × SellerCommEntry)) (k : Nat) : ℚ :=
  match m.find? (fun p => p.1 == k) with
  | some p => p.2.amount
  | none => 0

/-- Net amount (`orderAmount - commissionAmount`) credited to a seller key
by the distribution loop (0 when the key is absent). -/
def netOf (m : List (Nat × SellerCommEntry)) (k : Nat) : ℚ :=
  match m.find? (fun p => p.1 == k) with
  | some p => p.2.orderAmount - p.2.amount
  | none => 0

/-- Seller keys of the commission map. -/
def keysOf (m : List (Nat × SellerCommEntry)) : List Nat := m.map (fun p => p.1)

/-- Amount that one reversal-loop iteration debits from seller `sid`. -/
def revSellerDebit (c : Commission) (sid : Nat) : ℚ :=
  if c.status == "Paid" && c.type == "SELLER" && c.seller == some sid then
    c.commissionAmount
  else 0

/-- Amount that one reversal-loop iteration debits from delivery partner
`did`. -/
def revDeliveryDebit (c : Commission) (did : Nat) : ℚ :=
  if c.status == "Paid" && c.type == "DELIVERY_BOY" && c.deliveryBoy == some did then
    c.commissionAmount
  else 0

/-! ### Concrete states used by witnesses and counterexamples -/

/-- Empty data store. -/
def emptyDB : DB :=
  { orders := [], orderItems := [], sellers := [], deliveries := []
    products := [], categories := [], subCategories := [], commissions := []
    walletTxns := [], withdrawRequests := [], settings := none }

/-- Degenerate order: Delivered, but with no items and no delivery partner
— its distribution creates no Commission record. -/
def c1db : DB :=
  { emptyDB with
    orders := [⟨1, "ORD-1", "Delivered", [], none, 0, none⟩] }

/-- Pending order plus an existing commission, for exercising the guards. -/
def c1gdb : DB :=
  { emptyDB with
    orders := [⟨1, "ORD-1", "Pending", [], none, 0, none⟩,
               ⟨2, "ORD-2", "Delivered", [], none, 0, none⟩]
    commissions := [⟨2, some 9, none, "SELLER", 40, 10, 4, "Paid"⟩] }

/-- Order with a single 100-rupee item of seller 100. -/
def c2order : Order := ⟨1, "ORD-2", "Delivered", [10], none, 100, none⟩

/-- One Delivered order with a single 100-rupee item of seller 100 at rate
10 percent: distribution credits 90, reversal debits only the commission 10. -/
def c2db : DB :=
  { emptyDB with
    orders := [c2order]
    orderItems := [⟨10, 1, 100, 0, 100⟩]
    sellers := [⟨100, some 10, some 10, 0⟩] }

/-- Order with a seller item and a delivery partner. -/
def c2worder : Order := ⟨1, "ORD-2W", "Delivered", [10], some 200, 100, none⟩

/-- Delivered order with a seller item and a delivery partner, for the
amended reversal theorem's witness. -/
def c2wdb : DB :=
  { emptyDB with
    orders := [c2worder]
    orderItems := [⟨10, 1, 100, 0, 100⟩]
    sellers := [⟨100, some 10, some 10, 5⟩]
    deliveries := [⟨200, none, 7⟩] }

/-- Spec's example configuration: product 77 whose sub-sub-category carries
rate 8, sub-category rate 12, seller override 15. -/
def c3db : DB :=
  { emptyDB with
    products := [⟨77, some 1, some 2, none⟩]
    categories := [⟨1, some 8⟩]
    subCategories := [⟨2, some 12⟩] }

/-- The seller of the spec example, with override 15 on both rate fields. -/
def c3seller : Seller := ⟨100, some 15, some 15, 0⟩

/-- Same configuration with the seller stored, for comparing the two
resolution paths. -/
def c4db : DB :=
  { c3db with sellers := [c3seller] }

/-- Seller with agreeing positive rate fields and a product without any
classification override, for the amended path-agreement theorem's witness. -/
def c4wdb : DB :=
  { emptyDB with
    products := [⟨77, none, none, none⟩]
    sellers := [⟨100, some 7, some 7, 0⟩] }

/-- Order with two items of seller 100 and delivery partner 200. -/
def c5order : Order := ⟨1, "ORD-5", "Delivered", [10, 11], some 200, 150, none⟩

/-- Delivered order: two items of seller 100 (totals 100 and 50), delivery
partner 200 at percentage rate 5 on subtotal 150. -/
def c5db : DB :=
  { emptyDB with
    orders := [c5order]
    orderItems := [⟨10, 1, 100, 0, 100⟩, ⟨11, 1, 100, 0, 50⟩]
    sellers := [⟨100, some 10, some 10, 0⟩]
    deliveries := [⟨200, some 5, 0⟩] }

/-- Order with delivery partner 5 and subtotal 10.01. -/
def c6order : Order := ⟨1, "ORD-6", "Delivered", [], some 5, 1001 / 100, none⟩

/-- Percentage-path delivery commission whose exact value has four decimal
places: subtotal 10.01 at rate 5 gives 0.5005, which the code rounds. -/
def c6db : DB :=
  { emptyDB with
    orders := [c6order]
    deliveries := [⟨5, some 5, 0⟩] }

/-- Order with delivery partner 5 and delivery distance 7.5 km. -/
def c6worder : Order := ⟨1, "ORD-6W", "Delivered", [], some 5, 200, some (15 / 2)⟩

/-- Distance-based configuration of the spec example: km-rate 10 and
distance 7.5. -/
def c6wdb : DB :=
  { emptyDB with
    orders := [c6worder]
    deliveries := [⟨5, some 5, 0⟩]
    settings := some ⟨true, some 10⟩ }

/-- Pending withdrawal request of 500 for seller 100 with balance 0. -/
def c7db : DB :=
  { emptyDB with
    sellers := [⟨100, none, none, 0⟩]
    withdrawRequests := [⟨1, 100, "SELLER", 500, "Pending", none, false⟩] }

/-- The request snapshot both racing calls read from `c7db`. -/
def c7req : WithdrawRequest := ⟨1, 100, "SELLER", 500, "Pending", none, false⟩

/-- Pending withdrawal request of 500 for seller 100 with balance 10. -/
def c8db : DB :=
  { emptyDB with
    sellers := [⟨100, none, none, 10⟩]
    withdrawRequests := [⟨2, 100, "SELLER", 500, "Pending", none, false⟩] }

/-! ### General lemmas -/

theorem find?_map_pres {α : Type} (l : List α) (p : α → Bool) (f : α → α)
    (hpf : ∀ s, p (f s) = p s) : (l.map f).find? p = (l.find? p).map f := by
  induction l with
  | nil => rfl
  | cons s t ih =>
    by_cases h : p s = true
    · simp [List.find?_cons, hpf s, h]
    · simp only [Bool.not_eq_true] at h
      simp [List.find?_cons, hpf s, h, ih]

theorem posRate_some_pos {x : Option ℚ} {r : ℚ} (h : posRate x = some r) : 0 < r := by
  cases x with
  | none => simp [posRate] at h
  | some q =>
    simp only [posRate] at h
    split at h
    · cases h; assumption
    · cases h

theorem oaOf_addItem (m : List (Nat × SellerCommEntry)) (sid k : Nat) (t r : ℚ) :
    oaOf (addItem m sid t r) k = oaOf m k + (if k = sid then t else 0) := by
  induction m with
  | nil =>
    by_cases h : k = sid
    · subst h; simp [oaOf, addItem, List.find?_cons]
    · simp [oaOf, addItem, List.find?_cons, h, Ne.symm h]
  | cons hd tl ih =>
    obtain ⟨hk, e⟩ := hd
    by_cases h1 : hk = sid
    · subst h1
      by_cases h2 : k = hk
      · subst h2; simp [oaOf, addItem, List.find?_cons]
      · simp [oaOf, addItem, List.find?_cons, h2, Ne.symm h2]
    · by_cases h2 : hk = k
      · have hks : ¬ k = sid := fun hh => h1 (h2.trans hh)
        simp [oaOf, addItem, List.find?_cons, h1, h2, hks]
      · have := ih
        simp [oaOf, addItem, List.find?_cons, h1, h2] at this ⊢
        exact this

theorem amtOf_addItem (m : List (Nat × SellerCommEntry)) (sid k : Nat) (t r : ℚ) :
    amtOf (addItem m sid t r) k = amtOf m k + (if k = sid then t * r / 100 else 0) := by
  induction m with
  | nil =>
    by_cases h : k = sid
    · subst h; simp [amtOf, addItem, List.find?_cons]
    · simp [amtOf, addItem, List.find?_cons, h, Ne.symm h]
  | cons hd tl ih =>
    obtain ⟨hk, e⟩ := hd
    by_cases h1 : hk = sid
    · subst h1
      by_cases h2 : k = hk
      · subst h2; simp [amtOf, addItem, List.find?_cons]
      · simp [amtOf, addItem, List.find?_cons, h2, Ne.symm h2]
    · by_cases h2 : hk = k
      · have hks : ¬ k = sid := fun hh => h1 (h2.trans hh)
        simp [amtOf, addItem, List.find?_cons, h1, h2, hks]
      · have := ih
        simp [amtOf, addItem, List.find?_cons, h1, h2] at this ⊢
        exact this

theorem oaOf_fold (db : DB) (items : List Nat) :
    ∀ (m : List (Nat × SellerCommEntry)) (k : Nat),
      oaOf (items.foldl (calcStep db) m) k = oaOf m k + sellerItemsTotal db items k := by
  induction items with
  | nil => intro m k; simp [sellerItemsTotal]
  | cons i rest ih =>
    intro m k
    simp only [List.foldl_cons, sellerItemsTotal]
    cases hit : findOrderItem db i with
    | none => simp [calcStep, hit, ih]
    | some it =>
      rw [calcStep, hit, ih, oaOf_addItem]
      by_cases h : k = it.seller
      · subst h; simp; ring
      · simp [h, Ne.symm h]

theorem amtOf_fold (db : DB) (items : List Nat) :
    ∀ (m : List (Nat × SellerCommEntry)) (k : Nat),
      amtOf (items.foldl (calcStep db) m) k
        = amtOf m k + sellerItemsTotal db items k * getSellerCommissionRate db k / 100 := by
  induction items with
  | nil => intro m k; simp [sellerItemsTotal]
  | cons i rest ih =>
    intro m k
    simp only [List.foldl_cons, sellerItemsTotal]
    cases hit : findOrderItem db i with
    | none => simp [calcStep, hit, ih]
    | some it =>
      rw [calcStep, hit, ih, amtOf_addItem]
      by_cases h : k = it.seller
      · subst h; simp; ring
      · simp [h, Ne.symm h]

theorem mem_keys_addItem (m : List (Nat × SellerCommEntry)) (sid : Nat) (t r : ℚ)
    (x : Nat) : x ∈ keysOf (addItem m sid t r) ↔ x ∈ keysOf m ∨ x = sid := by
  induction m with
  | nil => simp [keysOf, addItem]
  | cons hd tl ih =>
    obtain ⟨hk, e⟩ := hd
    by_cases h1 : hk = sid
    · subst h1
      simp [keysOf, addItem] at ih ⊢
      tauto
    · simp [keysOf, addItem, h1] at ih ⊢
      tauto

theorem nodup_keys_addItem (m : List (Nat × SellerCommEntry)) (sid : Nat) (t r : ℚ)
    (h : (keysOf m).Nodup) : (keysOf (addItem m sid t r)).Nodup := by
  induction m with
  | nil => simp [keysOf, addItem]
  | cons hd tl ih =>
    obtain ⟨hk, e⟩ := hd
    simp only [keysOf, List.map_cons, List.nodup_cons] at h
    by_cases h1 : hk = sid
    · subst h1
      simpa [keysOf, addItem] using h
    · have htl := ih h.2
      simp only [addItem, beq_iff_eq, h1, if_false, keysOf, List.map_cons,
        List.nodup_cons]
      refine ⟨?_, htl⟩
      intro hmem
      rcases (mem_keys_addItem tl sid t r hk).mp hmem with hin | heq
      · exact h.1 hin
      · exact h1 heq

theorem nodup_keys_fold (db : DB) (items : List Nat) :
    ∀ m, (keysOf m).Nodup → (keysOf (items.foldl (calcStep db) m)).Nodup := by
  induction items with
  | nil => intro m h; simpa using h
  | cons i rest ih =>
    intro m h
    simp only [List.foldl_cons]
    apply ih
    cases hit : findOrderItem db i with
    | none => simpa [calcStep, hit] using h
    | some it =>
      rw [calcStep, hit]
      exact nodup_keys_addItem m it.seller it.total _ h

theorem nodup_keys_sellerCommissions (db : DB) (items : List Nat) :
    (keysOf (sellerCommissionsOf db items)).Nodup := by
  apply nodup_keys_fold
  simp [keysOf]

theorem findSeller_creditWallet (d : DB) (i sid : Nat) (ty : String) (a : ℚ)
    (ds : String) :
    findSeller (creditWallet d i ty a ds) sid =
      if ty == "SELLER" then
        (findSeller d sid).map
          (fun s => if s.id == i then { s with balance := s.balance + a } else s)
      else findSeller d sid := by
  by_cases hty : (ty == "SELLER") = true
  · simp only [findSeller, creditWallet, hty, if_true]
    exact find?_map_pres _ _ _
      (fun s => by by_cases h : (s.id == i) = true <;> simp [h])
  · simp only [Bool.not_eq_true] at hty
    simp [findSeller, creditWallet, hty]

theorem findDelivery_creditWallet (d : DB) (i did : Nat) (ty : String) (a : ℚ)
    (ds : String) :
    findDelivery (creditWallet d i ty a ds) did =
      if ty == "DELIVERY_BOY" then
        (findDelivery d did).map
          (fun x => if x.id == i then { x with balance := x.balance + a } else x)
      else findDelivery d did := by
  by_cases hty : (ty == "DELIVERY_BOY") = true
  · simp only [findDelivery, creditWallet, hty, if_true]
    exact find?_map_pres _ _ _
      (fun x => by by_cases h : (x.id == i) = true <;> simp [h])
  · simp only [Bool.not_eq_true] at hty
    simp [findDelivery, creditWallet, hty]

theorem findSeller_debitWallet (d : DB) (i sid : Nat) (ty : String) (a : ℚ)
    (ds : String) :
    findSeller (debitWallet d i ty a ds) sid =
      if ty == "SELLER" then
        (findSeller d sid).map
          (fun s => if s.id == i then { s with balance := s.balance - a } else s)
      else findSeller d sid := by
  by_cases hty : (ty == "SELLER") = true
  · simp only [findSeller, debitWallet, hty, if_true]
    exact find?_map_pres _ _ _
      (fun s => by by_cases h : (s.id == i) = true <;> simp [h])
  · simp only [Bool.not_eq_true] at hty
    simp [findSeller, debitWallet, hty]

theorem findDelivery_debitWallet (d : DB) (i did : Nat) (ty : String) (a : ℚ)
    (ds : String) :
    findDelivery (debitWallet d i ty a ds) did =
      if ty == "DELIVERY_BOY" then
        (findDelivery d did).map
          (fun x => if x.id == i then { x with balance := x.balance - a } else x)
      else findDelivery d did := by
  by_cases hty : (ty == "DELIVERY_BOY") = true
  · simp only [findDelivery, debitWallet, hty, if_true]
    exact find?_map_pres _ _ _
      (fun x => by by_cases h : (x.id == i) = true <;> simp [h])
  · simp only [Bool.not_eq_true] at hty
    simp [findDelivery, debitWallet, hty]

theorem sellerBalanceOf_credit_self (d : DB) (i : Nat) (a : ℚ) (ds : String)
    (h : (findSeller d i).isSome = true) :
    sellerBalanceOf (creditWallet d i "SELLER" a ds) i = sellerBalanceOf d i + a := by
  obtain ⟨s, hs⟩ := Option.isSome_iff_exists.mp h
  have hs2 : d.sellers.find? (fun q => q.id == i) = some s := hs
  have hid : (s.id == i) = true := by simpa using List.find?_some hs2
  have hid2 : s.id = i := by simpa using hid
  simp [sellerBalanceOf, findSeller_creditWallet, hs, hid2]

theorem sellerBalanceOf_credit_sid_ne (d : DB) (i sid : Nat) (ty : String) (a : ℚ)
    (ds : String) (h : i ≠ sid) :
    sellerBalanceOf (creditWallet d i ty a ds) sid = sellerBalanceOf d sid := by
  rw [sellerBalanceOf, findSeller_creditWallet]
  by_cases hty : (ty == "SELLER") = true
  · simp only [hty, if_true]
    cases hs : findSeller d sid with
    | none => simp [sellerBalanceOf, hs]
    | some s =>
      have hs2 : d.sellers.find? (fun q => q.id == sid) = some s := hs
      have hid : (s.id == sid) = true := by simpa using List.find?_some hs2
      have : (s.id == i) = false := by
        simp only [beq_iff_eq] at hid ⊢
        simp [hid, Ne.symm h]
      have hne : ¬ s.id = i := by simpa using this
      simp [sellerBalanceOf, hs, hne]
  · simp only [Bool.not_eq_true] at hty
    simp [sellerBalanceOf, hty]

theorem sellerBalanceOf_credit_ty_ne (d : DB) (i sid : Nat) (ty : String) (a : ℚ)
    (ds : String) (h : (ty == "SELLER") = false) :
    sellerBalanceOf (creditWallet d i ty a ds) sid = sellerBalanceOf d sid := by
  simp [sellerBalanceOf, findSeller_creditWallet, h]

theorem deliveryBalanceOf_credit_self (d : DB) (i : Nat) (a : ℚ) (ds : String)
    (h : (findDelivery d i).isSome = true) :
    deliveryBalanceOf (creditWallet d i "DELIVERY_BOY" a ds) i
      = deliveryBalanceOf d i + a := by
  obtain ⟨x, hx⟩ := Option.isSome_iff_exists.mp h
  have hx2 : d.deliveries.find? (fun q => q.id == i) = some x := hx
  have hid : (x.id == i) = true := by simpa using List.find?_some hx2
  have hid2 : x.id = i := by simpa using hid
  simp [deliveryBalanceOf, findDelivery_creditWallet, hx, hid2]

theorem deliveryBalanceOf_credit_ty_ne (d : DB) (i did : Nat) (ty : String) (a : ℚ)
    (ds : String) (h : (ty == "DELIVERY_BOY") = false) :
    deliveryBalanceOf (creditWallet d i ty a ds) did = deliveryBalanceOf d did := by
  simp [deliveryBalanceOf, findDelivery_creditWallet, h]

theorem sellerBalanceOf_debit_self (d : DB) (i : Nat) (a : ℚ) (ds : String)
    (h : (findSeller d i).isSome = true) :
    sellerBalanceOf (debitWallet d i "SELLER" a ds) i = sellerBalanceOf d i - a := by
  obtain ⟨s, hs⟩ := Option.isSome_iff_exists.mp h
  have hs2 : d.sellers.find? (fun q => q.id == i) = some s := hs
  have hid : (s.id == i) = true := by simpa using List.find?_some hs2
  have hid2 : s.id = i := by simpa using hid
  simp [sellerBalanceOf, findSeller_debitWallet, hs, hid2]

theorem sellerBalanceOf_debit_sid_ne (d : DB) (i sid : Nat) (ty : String) (a : ℚ)
    (ds : String) (h : i ≠ sid) :
    sellerBalanceOf (debitWallet d i ty a ds) sid = sellerBalanceOf d sid := by
  rw [sellerBalanceOf, findSeller_debitWallet]
  by_cases hty : (ty == "SELLER") = true
  · simp only [hty, if_true]
    cases hs : findSeller d sid with
    | none => simp [sellerBalanceOf, hs]
    | some s =>
      have hs2 : d.sellers.find? (fun q => q.id == sid) = some s := hs
      have hid : (s.id == sid) = true := by simpa using List.find?_some hs2
      have : (s.id == i) = false := by
        simp only [beq_iff_eq] at hid ⊢
        simp [hid, Ne.symm h]
      have hne : ¬ s.id = i := by simpa using this
      simp [sellerBalanceOf, hs, hne]
  · simp only [Bool.not_eq_true] at hty
    simp [sellerBalanceOf, hty]

theorem sellerBalanceOf_debit_ty_ne (d : DB) (i sid : Nat) (ty : String) (a : ℚ)
    (ds : String) (h : (ty == "SELLER") = false) :
    sellerBalanceOf (debitWallet d i ty a ds) sid = sellerBalanceOf d sid := by
  simp [sellerBalanceOf, findSeller_debitWallet, h]

theorem deliveryBalanceOf_debit_self (d : DB) (i : Nat) (a : ℚ) (ds : String)
    (h : (findDelivery d i).isSome = true) :
    deliveryBalanceOf (debitWallet d i "DELIVERY_BOY" a ds) i
      = deliveryBalanceOf d i - a := by
  obtain ⟨x, hx⟩ := Option.isSome_iff_exists.mp h
  have hx2 : d.deliveries.find? (fun q => q.id == i) = some x := hx
  have hid : (x.id == i) = true := by simpa using List.find?_some hx2
  have hid2 : x.id = i := by simpa using hid
  simp [deliveryBalanceOf, findDelivery_debitWallet, hx, hid2]

theorem deliveryBalanceOf_debit_did_ne (d : DB) (i did : Nat) (ty : String) (a : ℚ)
    (ds : String) (h : i ≠ did) :
    deliveryBalanceOf (debitWallet d i ty a ds) did = deliveryBalanceOf d did := by
  rw [deliveryBalanceOf, findDelivery_debitWallet]
  by_cases hty : (ty == "DELIVERY_BOY") = true
  · simp only [hty, if_true]
    cases hx : findDelivery d did with
    | none => simp [deliveryBalanceOf, hx]
    | some x =>
      have hx2 : d.deliveries.find? (fun q => q.id == did) = some x := hx
      have hid : (x.id == did) = true := by simpa using List.find?_some hx2
      have : (x.id == i) = false := by
        simp only [beq_iff_eq] at hid ⊢
        simp [hid, Ne.symm h]
      have hne : ¬ x.id = i := by simpa using this
      simp [deliveryBalanceOf, hx, hne]
  · simp only [Bool.not_eq_true] at hty
    simp [deliveryBalanceOf, hty]

theorem deliveryBalanceOf_debit_ty_ne (d : DB) (i did : Nat) (ty : String) (a : ℚ)
    (ds : String) (h : (ty == "DELIVERY_BOY") = false) :
    deliveryBalanceOf (debitWallet d i ty a ds) did = deliveryBalanceOf d did := by
  simp [deliveryBalanceOf, findDelivery_debitWallet, h]

theorem isSome_findSeller_creditWallet (d : DB) (i sid : Nat) (ty : String) (a : ℚ)
    (ds : String) :
    (findSeller (creditWallet d i ty a ds) sid).isSome = (findSeller d sid).isSome := by
  rw [findSeller_creditWallet]
  by_cases hty : (ty == "SELLER") = true <;> simp [hty]

theorem isSome_findSeller_debitWallet (d : DB) (i sid : Nat) (ty : String) (a : ℚ)
    (ds : String) :
    (findSeller (debitWallet d i ty a ds) sid).isSome = (findSeller d sid).isSome := by
  rw [findSeller_debitWallet]
  by_cases hty : (ty == "SELLER") = true <;> simp [hty]

theorem isSome_findDelivery_creditWallet (d : DB) (i did : Nat) (ty : String) (a : ℚ)
    (ds : String) :
    (findDelivery (creditWallet d i ty a ds) did).isSome
      = (findDelivery d did).isSome := by
  rw [findDelivery_creditWallet]
  by_cases hty : (ty == "DELIVERY_BOY") = true <;> simp [hty]

theorem isSome_findDelivery_debitWallet (d : DB) (i did : Nat) (ty : String) (a : ℚ)
    (ds : String) :
    (findDelivery (debitWallet d i ty a ds) did).isSome
      = (findDelivery d did).isSome := by
  rw [findDelivery_debitWallet]
  by_cases hty : (ty == "DELIVERY_BOY") = true <;> simp [hty]

theorem netOf_not_mem (t : List (Nat × SellerCommEntry)) (sid : Nat)
    (h : sid ∉ keysOf t) : netOf t sid = 0 := by
  have hf : t.find? (fun p => p.1 == sid) = none := by
    rw [List.find?_eq_none]
    intro p hp
    simp only [beq_iff_eq]
    intro hps
    apply h
    rw [keysOf, List.mem_map]
    exact ⟨p, hp, hps⟩
  simp [netOf, hf]

theorem distSellerStep_findSeller_isSome (oid : Nat) (onum : String) (d : DB)
    (p : Nat × SellerCommEntry) (sid : Nat) :
    (findSeller (distSellerStep oid onum d p) sid).isSome
      = (findSeller d sid).isSome := by
  unfold distSellerStep
  rw [isSome_findSeller_creditWallet]
  rfl

theorem distFold_commissions (oid : Nat) (onum : String)
    (l : List (Nat × SellerCommEntry)) :
    ∀ (d : DB), (l.foldl (distSellerStep oid onum) d).commissions
      = d.commissions ++ l.map (sellerRecordOf oid) := by
  induction l with
  | nil => intro d; simp
  | cons p t ih =>
    intro d
    simp only [List.foldl_cons, List.map_cons]
    rw [ih]
    show (creditWallet _ _ _ _ _).commissions ++ _ = _
    simp [creditWallet]

theorem distFold_orders (oid : Nat) (onum : String)
    (l : List (Nat × SellerCommEntry)) :
    ∀ (d : DB), (l.foldl (distSellerStep oid onum) d).orders = d.orders := by
  induction l with
  | nil => intro d; rfl
  | cons p t ih =>
    intro d
    simp only [List.foldl_cons]
    rw [ih]
    rfl

theorem distFold_deliveries (oid : Nat) (onum : String)
    (l : List (Nat × SellerCommEntry)) :
    ∀ (d : DB), (l.foldl (distSellerStep oid onum) d).deliveries = d.deliveries := by
  induction l with
  | nil => intro d; rfl
  | cons p t ih =>
    intro d
    simp only [List.foldl_cons]
    rw [ih]
    show (creditWallet _ _ "SELLER" _ _).deliveries = d.deliveries
    simp [creditWallet]

theorem distFold_sellerBalance (oid : Nat) (onum : String) (sid : Nat)
    (l : List (Nat × SellerCommEntry)) :
    ∀ (d : DB), (keysOf l).Nodup → (findSeller d sid).isSome = true →
      sellerBalanceOf (l.foldl (distSellerStep oid onum) d) sid
        = sellerBalanceOf d sid + netOf l sid := by
  induction l with
  | nil => intro d _ _; simp [netOf]
  | cons p t ih =>
    intro d hnd hp
    obtain ⟨k, e⟩ := p
    simp only [keysOf, List.map_cons, List.nodup_cons] at hnd
    have hnd2 : (keysOf t).Nodup := hnd.2
    simp only [List.foldl_cons]
    have hpres : (findSeller (distSellerStep oid onum d (k, e)) sid).isSome = true := by
      rw [distSellerStep_findSeller_isSome]; exact hp
    rw [ih _ hnd2 hpres]
    by_cases hk : k = sid
    · subst hk
      have hstep : sellerBalanceOf (distSellerStep oid onum d (k, e)) k
          = sellerBalanceOf d k + (e.orderAmount - e.amount) := by
        unfold distSellerStep
        exact sellerBalanceOf_credit_self _ k _ _ hp
      have hzero : netOf t k = 0 := netOf_not_mem t k hnd.1
      have hhead : netOf ((k, e) :: t) k = e.orderAmount - e.amount := by
        simp [netOf, List.find?_cons]
      rw [hstep, hzero, hhead]
      ring
    · have hstep : sellerBalanceOf (distSellerStep oid onum d (k, e)) sid
          = sellerBalanceOf d sid := by
        unfold distSellerStep
        exact sellerBalanceOf_credit_sid_ne _ k sid _ _ _ hk
      have hhead : netOf ((k, e) :: t) sid = netOf t sid := by
        simp [netOf, List.find?_cons, hk]
      rw [hstep, hhead]

theorem applyDistribution_orders (db : DB) (oid : Nat) (o : Order) :
    (applyDistribution db oid o).orders = db.orders := by
  unfold applyDistribution
  cases hdc : (calcOrder db o).deliveryBoy with
  | none => simp [hdc, distFold_orders]
  | some dc =>
    simp only [hdc]
    show (creditWallet _ _ _ _ _).orders = db.orders
    simp [creditWallet, distFold_orders]

theorem applyDistribution_commissions (db : DB) (oid : Nat) (o : Order) :
    (applyDistribution db oid o).commissions
      = db.commissions ++ (sellerCommissionsOf db o.items).map (sellerRecordOf oid)
          ++ (match deliveryCommOf db o with
              | some dc => [deliveryRecordOf oid dc]
              | none => []) := by
  unfold applyDistribution
  cases hdc : (calcOrder db o).deliveryBoy with
  | none =>
    have hdc2 : deliveryCommOf db o = none := hdc
    simp [hdc, hdc2, distFold_commissions, calcOrder]
  | some dc =>
    have hdc2 : deliveryCommOf db o = some dc := hdc
    simp only [hdc, hdc2]
    show (creditWallet _ _ _ _ _).commissions = _
    simp [creditWallet, distFold_commissions, calcOrder]

theorem applyDistribution_sellerBalance (db : DB) (oid : Nat) (o : Order)
    (sid : Nat) (hp : (findSeller db sid).isSome = true) :
    sellerBalanceOf (applyDistribution db oid o) sid
      = sellerBalanceOf db sid + netOf (sellerCommissionsOf db o.items) sid := by
  unfold applyDistribution
  cases hdc : (calcOrder db o).deliveryBoy with
  | none =>
    simp only [hdc]
    exact distFold_sellerBalance oid o.orderNumber sid _ db
      (nodup_keys_sellerCommissions db o.items) hp
  | some dc =>
    simp only [hdc]
    have hbase := distFold_sellerBalance oid o.orderNumber sid
      (calcOrder db o).seller db (nodup_keys_sellerCommissions db o.items) hp
    rw [sellerBalanceOf_credit_ty_ne _ _ _ _ _ _ (by decide)]
    show sellerBalanceOf ((calcOrder db o).seller.foldl (distSellerStep oid o.orderNumber) db) sid = _
    exact hbase

theorem applyDistribution_deliveryBalance (db : DB) (oid : Nat) (o : Order)
    (dc : DeliveryComm) (hdc : deliveryCommOf db o = some dc)
    (hp : (findDelivery db dc.deliveryBoyId).isSome = true) :
    deliveryBalanceOf (applyDistribution db oid o) dc.deliveryBoyId
      = deliveryBalanceOf db dc.deliveryBoyId + dc.amount := by
  unfold applyDistribution
  have hdc1 : (calcOrder db o).deliveryBoy = some dc := hdc
  simp only [hdc1]
  set db1 := (calcOrder db o).seller.foldl (distSellerStep oid o.orderNumber) db with hdb1
  have hdel : db1.deliveries = db.deliveries := distFold_deliveries _ _ _ db
  have hbal1 : ∀ did, deliveryBalanceOf db1 did = deliveryBalanceOf db did := by
    intro did; simp [deliveryBalanceOf, findDelivery, hdel]
  have hpres1 : (findDelivery { db1 with
      commissions := db1.commissions ++ [deliveryRecordOf oid dc] } dc.deliveryBoyId).isSome = true := by
    show (findDelivery db1 dc.deliveryBoyId).isSome = true
    simp [findDelivery, hdel]
    simpa [findDelivery] using hp
  rw [deliveryBalanceOf_credit_self _ _ _ _ hpres1]
  have : deliveryBalanceOf { db1 with
      commissions := db1.commissions ++ [deliveryRecordOf oid dc] } dc.deliveryBoyId
      = deliveryBalanceOf db1 dc.deliveryBoyId := rfl
  rw [this, hbal1]

theorem amtOf_not_mem (t : List (Nat × SellerCommEntry)) (sid : Nat)
    (h : sid ∉ keysOf t) : amtOf t sid = 0 := by
  have hf : t.find? (fun p => p.1 == sid) = none := by
    rw [List.find?_eq_none]
    intro p hp
    simp only [beq_iff_eq]
    intro hps
    apply h
    rw [keysOf, List.mem_map]
    exact ⟨p, hp, hps⟩
  simp [amtOf, hf]

theorem revStep_commissions (d : DB) (c : Commission) :
    (revStep d c).commissions = d.commissions := by
  by_cases h : (c.status == "Paid") = true
  · simp only [revStep, h, if_true]
    cases hc : reverseSubjectOf c <;> simp [debitWallet]
  · simp only [Bool.not_eq_true] at h
    simp [revStep, h]

theorem revFold_commissions (cs : List Commission) :
    ∀ (d : DB), (cs.foldl revStep d).commissions = d.commissions := by
  induction cs with
  | nil => intro d; rfl
  | cons c t ih =>
    intro d
    simp only [List.foldl_cons]
    rw [ih, revStep_commissions]

theorem revStep_findSeller_isSome (d : DB) (c : Commission) (sid : Nat) :
    (findSeller (revStep d c) sid).isSome = (findSeller d sid).isSome := by
  by_cases h : (c.status == "Paid") = true
  · simp only [revStep, h, if_true]
    cases hc : reverseSubjectOf c with
    | none => rfl
    | some uid => exact isSome_findSeller_debitWallet _ _ _ _ _ _
  · simp only [Bool.not_eq_true] at h
    simp [revStep, h]

theorem revStep_findDelivery_isSome (d : DB) (c : Commission) (did : Nat) :
    (findDelivery (revStep d c) did).isSome = (findDelivery d did).isSome := by
  by_cases h : (c.status == "Paid") = true
  · simp only [revStep, h, if_true]
    cases hc : reverseSubjectOf c with
    | none => rfl
    | some uid => exact isSome_findDelivery_debitWallet _ _ _ _ _ _
  · simp only [Bool.not_eq_true] at h
    simp [revStep, h]

theorem revStep_sellerBalance (d : DB) (c : Commission) (sid : Nat)
    (hp : (findSeller d sid).isSome = true) :
    sellerBalanceOf (revStep d c) sid = sellerBalanceOf d sid - revSellerDebit c sid := by
  by_cases hst : (c.status == "Paid") = true
  · simp only [revStep, hst, if_true]
    by_cases hty : (c.type == "SELLER") = true
    · have hsub : reverseSubjectOf c = c.seller := by simp [reverseSubjectOf, hty]
      cases hcs : c.seller with
      | none => simp [hsub, hcs, revSellerDebit, hst, hty]
      | some uid =>
        rw [hsub, hcs]
        by_cases huid : uid = sid
        · subst huid
          have hty2 : c.type = "SELLER" := by simpa using hty
          rw [hty2, sellerBalanceOf_debit_self _ _ _ _ hp]
          simp [revSellerDebit, hst, hty, hcs]
        · rw [sellerBalanceOf_debit_sid_ne _ _ _ _ _ _ huid]
          have : (some uid == some sid) = false := by simp [huid]
          simp [revSellerDebit, hst, hty, hcs, this, huid]
    · have hsub : reverseSubjectOf c = c.deliveryBoy := by simp [reverseSubjectOf, hty]
      have hty0 : (c.type == "SELLER") = false := by
        simpa using hty
      cases hcs : c.deliveryBoy with
      | none => simp [hsub, hcs, revSellerDebit, hst, hty0]
      | some uid =>
        rw [hsub, hcs, sellerBalanceOf_debit_ty_ne _ _ _ _ _ _ hty0]
        simp [revSellerDebit, hst, hty0]
  · have hst0 : (c.status == "Paid") = false := by simpa using hst
    simp [revStep, hst0, revSellerDebit]

theorem revStep_deliveryBalance (d : DB) (c : Commission) (did : Nat)
    (hp : (findDelivery d did).isSome = true) :
    deliveryBalanceOf (revStep d c) did
      = deliveryBalanceOf d did - revDeliveryDebit c did := by
  by_cases hst : (c.status == "Paid") = true
  · simp only [revStep, hst, if_true]
    by_cases hty : (c.type == "SELLER") = true
    · have hsub : reverseSubjectOf c = c.seller := by simp [reverseSubjectOf, hty]
      have htyD : (c.type == "DELIVERY_BOY") = false := by
        have : c.type = "SELLER" := by simpa using hty
        simp [this]
      cases hcs : c.seller with
      | none => simp [hsub, hcs, revDeliveryDebit, hst, htyD]
      | some uid =>
        rw [hsub, hcs, deliveryBalanceOf_debit_ty_ne _ _ _ _ _ _ htyD]
        simp [revDeliveryDebit, hst, htyD]
    · have hsub : reverseSubjectOf c = c.deliveryBoy := by simp [reverseSubjectOf, hty]
      cases hcs : c.deliveryBoy with
      | none =>
        have : (c.deliveryBoy == some did) = false := by simp [hcs]
        simp [hsub, hcs, revDeliveryDebit, this]
      | some uid =>
        rw [hsub, hcs]
        by_cases hdy : (c.type == "DELIVERY_BOY") = true
        · by_cases huid : uid = did
          · subst huid
            have hty2 : c.type = "DELIVERY_BOY" := by simpa using hdy
            rw [hty2, deliveryBalanceOf_debit_self _ _ _ _ hp]
            simp [revDeliveryDebit, hst, hdy, hcs]
          · rw [deliveryBalanceOf_debit_did_ne _ _ _ _ _ _ huid]
            have : (some uid == some did) = false := by simp [huid]
            simp [revDeliveryDebit, hst, hdy, hcs, this]
        · have hdy0 : (c.type == "DELIVERY_BOY") = false := by simpa using hdy
          rw [deliveryBalanceOf_debit_ty_ne _ _ _ _ _ _ hdy0]
          simp [revDeliveryDebit, hst, hdy0]
  · have hst0 : (c.status == "Paid") = false := by simpa using hst
    simp [revStep, hst0, revDeliveryDebit]

theorem revFold_sellerBalance (sid : Nat) (cs : List Commission) :
    ∀ (d : DB), (findSeller d sid).isSome = true →
      sellerBalanceOf (cs.foldl revStep d) sid
        = sellerBalanceOf d sid - (cs.map (fun c => revSellerDebit c sid)).sum := by
  induction cs with
  | nil => intro d _; simp
  | cons c t ih =>
    intro d hp
    simp only [List.foldl_cons, List.map_cons, List.sum_cons]
    have hp1 : (findSeller (revStep d c) sid).isSome = true := by
      rw [revStep_findSeller_isSome]; exact hp
    rw [ih _ hp1, revStep_sellerBalance _ _ _ hp]
    ring

theorem revFold_deliveryBalance (did : Nat) (cs : List Commission) :
    ∀ (d : DB), (findDelivery d did).isSome = true →
      deliveryBalanceOf (cs.foldl revStep d) did
        = deliveryBalanceOf d did - (cs.map (fun c => revDeliveryDebit c did)).sum := by
  induction cs with
  | nil => intro d _; simp
  | cons c t ih =>
    intro d hp
    simp only [List.foldl_cons, List.map_cons, List.sum_cons]
    have hp1 : (findDelivery (revStep d c) did).isSome = true := by
      rw [revStep_findDelivery_isSome]; exact hp
    rw [ih _ hp1, revStep_deliveryBalance _ _ _ hp]
    ring

theorem distributeCommissions_success_inv (db : DB) (oid : Nat) (res : OpResult)
    (db2 : DB) (h : distributeCommissions db oid = (res, db2))
    (hs : res.success = true) :
    ∃ o, findOrder db oid = some o ∧ o.status = "Delivered"
      ∧ db.commissions.filter (fun c => c.order == oid) = []
      ∧ db2 = applyDistribution db oid o := by
  unfold distributeCommissions at h
  cases ho : findOrder db oid with
  | none =>
    rw [ho] at h
    injection h with h1 h2
    rw [← h1] at hs
    simp at hs
  | some o =>
    rw [ho] at h
    simp only [] at h
    by_cases hst : (o.status == "Delivered") = true
    · by_cases hemp : (db.commissions.filter (fun c => c.order == oid)).isEmpty = true
      · simp only [hst, hemp, if_true] at h
        injection h with h1 h2
        refine ⟨o, rfl, by simpa using hst, ?_, h2.symm⟩
        simpa using hemp
      · simp only [hst, if_true] at h
        rw [if_neg (by simpa using hemp)] at h
        injection h with h1 h2
        rw [← h1] at hs
        simp at hs
    · rw [if_neg (by simpa using hst)] at h
      injection h with h1 h2
      rw [← h1] at hs
      simp at hs

theorem reverseCommissions_empty (db : DB) (oid : Nat)
    (h : (db.commissions.filter (fun c => c.order == oid)).isEmpty = true) :
    reverseCommissions db oid = (⟨true, "No commissions to reverse"⟩, db) := by
  simp [reverseCommissions, h]

theorem reverseCommissions_nonempty (db : DB) (oid : Nat)
    (h : (db.commissions.filter (fun c => c.order == oid)).isEmpty = false) :
    reverseCommissions db oid = (⟨true, "Commissions reversed successfully"⟩,
      (db.commissions.filter (fun c => c.order == oid)).foldl revStep
        { db with commissions := db.commissions.map (cancelPaid oid) }) := by
  simp [reverseCommissions, h]

theorem reverse_no_paid (db : DB) (oid : Nat) :
    ∀ c ∈ (reverseCommissions db oid).2.commissions, c.order = oid → c.status ≠ "Paid" := by
  intro c hc hco
  by_cases hemp : (db.commissions.filter (fun c => c.order == oid)).isEmpty = true
  · rw [reverseCommissions_empty db oid hemp] at hc
    have hnil : db.commissions.filter (fun c => c.order == oid) = [] := by
      simpa using hemp
    have := List.filter_eq_nil_iff.mp hnil c hc
    simp [hco] at this
  · have hemp2 : (db.commissions.filter (fun c => c.order == oid)).isEmpty = false := by
      simpa using hemp
    rw [reverseCommissions_nonempty db oid hemp2] at hc
    simp only [revFold_commissions] at hc
    simp only [List.mem_map] at hc
    obtain ⟨c0, hc0, hcc⟩ := hc
    by_cases h1 : (c0.order == oid && c0.status == "Paid") = true
    · rw [cancelPaid, if_pos h1] at hcc
      rw [← hcc]
      intro hfalse
      simp at hfalse
    · rw [cancelPaid, if_neg (by simpa using h1)] at hcc
      subst hcc
      simp only [Bool.and_eq_true, beq_iff_eq] at h1
      intro hpaid
      exact h1 ⟨hco, hpaid⟩

theorem reverseCommissions_sellerBalance (db : DB) (oid sid : Nat)
    (hp : (findSeller db sid).isSome = true) :
    sellerBalanceOf (reverseCommissions db oid).2 sid
      = sellerBalanceOf db sid
        - ((db.commissions.filter (fun c => c.order == oid)).map
            (fun c => revSellerDebit c sid)).sum := by
  by_cases hemp : (db.commissions.filter (fun c => c.order == oid)).isEmpty = true
  · have hnil : db.commissions.filter (fun c => c.order == oid) = [] := by simpa using hemp
    rw [reverseCommissions_empty db oid hemp, hnil]
    simp
  · have hemp2 : (db.commissions.filter (fun c => c.order == oid)).isEmpty = false := by
      simpa using hemp
    rw [reverseCommissions_nonempty db oid hemp2]
    have hp1 : (findSeller { db with
        commissions := db.commissions.map (cancelPaid oid) } sid).isSome = true := hp
    rw [revFold_sellerBalance sid _ _ hp1]
    rfl

theorem reverseCommissions_deliveryBalance (db : DB) (oid did : Nat)
    (hp : (findDelivery db did).isSome = true) :
    deliveryBalanceOf (reverseCommissions db oid).2 did
      = deliveryBalanceOf db did
        - ((db.commissions.filter (fun c => c.order == oid)).map
            (fun c => revDeliveryDebit c did)).sum := by
  by_cases hemp : (db.commissions.filter (fun c => c.order == oid)).isEmpty = true
  · have hnil : db.commissions.filter (fun c => c.order == oid) = [] := by simpa using hemp
    rw [reverseCommissions_empty db oid hemp, hnil]
    simp
  · have hemp2 : (db.commissions.filter (fun c => c.order == oid)).isEmpty = false := by
      simpa using hemp
    rw [reverseCommissions_nonempty db oid hemp2]
    have hp1 : (findDelivery { db with
        commissions := db.commissions.map (cancelPaid oid) } did).isSome = true := hp
    rw [revFold_deliveryBalance did _ _ hp1]
    rfl

theorem revSellerDebit_sellerRecord (oid : Nat) (p : Nat × SellerCommEntry) (sid : Nat) :
    revSellerDebit (sellerRecordOf oid p) sid
      = if p.1 = sid then p.2.amount else 0 := by
  by_cases h : p.1 = sid <;> simp [revSellerDebit, sellerRecordOf, h]

theorem revSellerDebit_deliveryRecord (oid : Nat) (dc : DeliveryComm) (sid : Nat) :
    revSellerDebit (deliveryRecordOf oid dc) sid = 0 := by
  simp [revSellerDebit, deliveryRecordOf]

theorem revDeliveryDebit_sellerRecord (oid : Nat) (p : Nat × SellerCommEntry) (did : Nat) :
    revDeliveryDebit (sellerRecordOf oid p) did = 0 := by
  simp [revDeliveryDebit, sellerRecordOf]

theorem revDeliveryDebit_deliveryRecord (oid : Nat) (dc : DeliveryComm) (did : Nat) :
    revDeliveryDebit (deliveryRecordOf oid dc) did
      = if dc.deliveryBoyId = did then dc.amount else 0 := by
  by_cases h : dc.deliveryBoyId = did <;> simp [revDeliveryDebit, deliveryRecordOf, h]

theorem sum_revSellerDebit_sellerRecords (oid sid : Nat)
    (l : List (Nat × SellerCommEntry)) (hnd : (keysOf l).Nodup) :
    ((l.map (sellerRecordOf oid)).map (fun c => revSellerDebit c sid)).sum
      = amtOf l sid := by
  induction l with
  | nil => simp [amtOf]
  | cons p t ih =>
    obtain ⟨k, e⟩ := p
    simp only [keysOf, List.map_cons, List.nodup_cons] at hnd
    simp only [List.map_cons, List.sum_cons, revSellerDebit_sellerRecord]
    by_cases hk : k = sid
    · subst hk
      have htail : amtOf t k = 0 := amtOf_not_mem t k hnd.1
      rw [ih hnd.2, htail]
      simp [amtOf, List.find?_cons]
    · rw [ih hnd.2]
      simp [amtOf, List.find?_cons, hk]

theorem sum_revDeliveryDebit_sellerRecords (oid did : Nat)
    (l : List (Nat × SellerCommEntry)) :
    ((l.map (sellerRecordOf oid)).map (fun c => revDeliveryDebit c did)).sum = 0 := by
  induction l with
  | nil => simp
  | cons p t ih =>
    simp only [List.map_cons, List.sum_cons, revDeliveryDebit_sellerRecord, ih]
    simp

theorem distFold_findSeller_isSome (oid : Nat) (onum : String) (sid : Nat)
    (l : List (Nat × SellerCommEntry)) :
    ∀ (d : DB), (findSeller (l.foldl (distSellerStep oid onum) d) sid).isSome
      = (findSeller d sid).isSome := by
  induction l with
  | nil => intro d; rfl
  | cons p t ih =>
    intro d
    simp only [List.foldl_cons]
    rw [ih, distSellerStep_findSeller_isSome]

theorem applyDistribution_findSeller_isSome (db : DB) (oid : Nat) (o : Order)
    (sid : Nat) :
    (findSeller (applyDistribution db oid o) sid).isSome
      = (findSeller db sid).isSome := by
  unfold applyDistribution
  cases hdc : (calcOrder db o).deliveryBoy with
  | none => simp only [hdc]; exact distFold_findSeller_isSome _ _ _ _ db
  | some dc =>
    simp only [hdc]
    rw [isSome_findSeller_creditWallet]
    show (findSeller ((calcOrder db o).seller.foldl (distSellerStep oid o.orderNumber) db) sid).isSome = _
    exact distFold_findSeller_isSome _ _ _ _ db

theorem applyDistribution_findDelivery_isSome (db : DB) (oid : Nat) (o : Order)
    (did : Nat) :
    (findDelivery (applyDistribution db oid o) did).isSome
      = (findDelivery db did).isSome := by
  unfold applyDistribution
  cases hdc : (calcOrder db o).deliveryBoy with
  | none =>
    simp only [hdc]
    simp [findDelivery, distFold_deliveries]
  | some dc =>
    simp only [hdc]
    rw [isSome_findDelivery_creditWallet]
    show (findDelivery ((calcOrder db o).seller.foldl (distSellerStep oid o.orderNumber) db) did).isSome = _
    simp [findDelivery, distFold_deliveries]

theorem findRequest_saveRequest (db : DB) (req r : WithdrawRequest) (rid : Nat)
    (h1 : findRequest db rid = some req) (hid : r.id = req.id) :
    findRequest (saveRequest db r) rid = some r := by
  have hpf : ∀ q : WithdrawRequest,
      ((if q.id == r.id then r else q).id == rid) = (q.id == rid) := by
    intro q
    by_cases hq : (q.id == r.id) = true
    · have hqe : q.id = r.id := by simpa using hq
      simp [hq, hqe]
    · simp only [Bool.not_eq_true] at hq
      simp [hq]
  unfold findRequest saveRequest
  rw [find?_map_pres _ _ _ hpf]
  unfold findRequest at h1
  rw [h1]
  have hbe : req.id = r.id := hid.symm
  simp [hbe]

/-- C9: when the seller or delivery-partner record cannot be found, rate
resolution fails soft and returns the global default (10 for sellers, 5 for
delivery partners) instead of propagating an error. -/
theorem rateResolution_soft_fail (db : DB) (sid did : Nat) :
    (findSeller db sid = none → getSellerCommissionRate db sid = 10)
    ∧ (findDelivery db did = none → getDeliveryBoyCommissionRate db did = 5) := by
  constructor
  · intro h; simp [getSellerCommissionRate, h]
  · intro h; simp [getDeliveryBoyCommissionRate, h]

/-- Witness for C9 at the empty store, where no record can be found. -/
theorem rateResolution_soft_fail_witness :
    getSellerCommissionRate emptyDB 1 = 10
    ∧ getDeliveryBoyCommissionRate emptyDB 1 = 5 :=
  ⟨(rateResolution_soft_fail emptyDB 1 1).1 rfl,
   (rateResolution_soft_fail emptyDB 1 1).2 rfl⟩

/-- C3: the eager per-item rate resolution of `orderService.createCommissions`
follows the claimed priority — first positive value among sub-sub-category,
sub-category and category overrides, then the seller's positive individual
override, then the global default 10 — and on the spec's example
(sub-sub-category 8, sub-category 12, seller override 15) it resolves 8. -/
theorem eagerCommissionRate_priority :
    (∀ (db : DB) (s : Seller) (pid : Nat),
      eagerCommissionRate db s pid
        = claimedPriorityRate (subSubRate db pid) (subCatRate db pid)
            (catRate db pid) s.commission)
    ∧ eagerCommissionRate c3db c3seller 77 = 8 := by
  constructor
  · intro db s pid
    unfold eagerCommissionRate classificationRate claimedPriorityRate
    cases h1 : posRate (subSubRate db pid) with
    | some r =>
      have hr := posRate_some_pos h1
      simp [hr.ne.symm]
    | none =>
      cases h2 : posRate (subCatRate db pid) with
      | some r =>
        have hr := posRate_some_pos h2
        simp [hr.ne.symm]
      | none =>
        cases h3 : posRate (catRate db pid) with
        | some r =>
          have hr := posRate_some_pos h3
          simp [hr.ne.symm]
        | none => simp
  · norm_num [eagerCommissionRate, classificationRate, posRate, subSubRate,
      subCatRate, catRate, findProduct, findCategory, findSubCategory, c3db,
      c3seller, emptyDB, List.find?]

/-- C4 counterexample: on the spec's own example configuration the two rate
paths disagree — the eager path resolves 8 (sub-sub-category), while the
batched path (`getSellerCommissionRate`) resolves 15 (the seller's
`commissionRate` field), so the rates and the per-item amounts differ. -/
theorem commissionRate_paths_disagree :
    eagerCommissionRate c4db c3seller 77 = 8
    ∧ getSellerCommissionRate c4db 100 = 15
    ∧ findSeller c4db 100 = some c3seller
    ∧ eagerCommissionRate c4db c3seller 77 ≠ getSellerCommissionRate c4db 100
    ∧ (100 : ℚ) * eagerCommissionRate c4db c3seller 77 / 100
        ≠ (100 : ℚ) * getSellerCommissionRate c4db 100 / 100 := by
  have h1 : eagerCommissionRate c4db c3seller 77 = 8 := by
    norm_num [eagerCommissionRate, classificationRate, posRate, subSubRate,
      subCatRate, catRate, findProduct, findCategory, findSubCategory, c4db,
      c3db, c3seller, emptyDB, List.find?]
  have h2 : getSellerCommissionRate c4db 100 = 15 := by
    norm_num [getSellerCommissionRate, findSeller, c4db, c3db, c3seller,
      emptyDB, List.find?]
  refine ⟨h1, h2, by norm_num [findSeller, c4db, c3db, c3seller, emptyDB,
    List.find?], ?_, ?_⟩
  · rw [h1, h2]; norm_num
  · rw [h1, h2]; norm_num

/-- C4 amended: the eager path and the batched path resolve the same rate
(and hence the same per-item amount, neither path rounding per item) exactly
when the product carries no positive classification override and the
seller's two stored rate fields (`commission`, read by the eager path, and
`commissionRate`, read by the batched path) agree and are positive or both
unset; in general the batched path ignores classification overrides, so the
paths disagree. -/
theorem commissionRate_paths_agree (db : DB) (s : Seller) (sid pid : Nat)
    (hs : findSeller db sid = some s)
    (h1 : posRate (subSubRate db pid) = none)
    (h2 : posRate (subCatRate db pid) = none)
    (h3 : posRate (catRate db pid) = none)
    (h4 : s.commission = s.commissionRate)
    (h5 : ∀ r, s.commission = some r → 0 < r) :
    eagerCommissionRate db s pid = getSellerCommissionRate db sid
    ∧ ∀ t : ℚ, t * eagerCommissionRate db s pid / 100
        = t * getSellerCommissionRate db sid / 100 := by
  have hcl : classificationRate db pid = 0 := by
    simp [classificationRate, h1, h2, h3]
  have hrate : eagerCommissionRate db s pid = getSellerCommissionRate db sid := by
    unfold eagerCommissionRate getSellerCommissionRate
    rw [hcl, hs]
    cases h6 : s.commission with
    | none =>
      have h7 : s.commissionRate = none := h4.symm.trans h6
      simp [posRate, h7]
    | some r =>
      have hr := h5 r h6
      have h7 : s.commissionRate = some r := h4.symm.trans h6
      simp [posRate, h7, hr]
  exact ⟨hrate, fun t => by rw [hrate]⟩

/-- Witness for C4's amended theorem: seller 100 stores rate 7 in both
fields and product 77 has no classification override, so both paths
resolve 7. -/
theorem commissionRate_paths_agree_witness :
    eagerCommissionRate c4wdb ⟨100, some 7, some 7, 0⟩ 77
        = getSellerCommissionRate c4wdb 100
    ∧ (50 : ℚ) * eagerCommissionRate c4wdb ⟨100, some 7, some 7, 0⟩ 77 / 100
        = (50 : ℚ) * getSellerCommissionRate c4wdb 100 / 100 := by
  have h := commissionRate_paths_agree c4wdb ⟨100, some 7, some 7, 0⟩ 100 77
    (by norm_num [findSeller, c4wdb, emptyDB, List.find?])
    (by norm_num [posRate, subSubRate, findProduct, c4wdb, emptyDB, List.find?])
    (by norm_num [posRate, subCatRate, findProduct, c4wdb, emptyDB, List.find?])
    (by norm_num [posRate, catRate, findProduct, c4wdb, emptyDB, List.find?])
    rfl
    (by intro r hr; simp at hr; rw [← hr]; norm_num)
  exact ⟨h.1, h.2 50⟩

/-- C6 counterexample: with distance-based pricing inactive, the code rounds
the percentage-path delivery commission to 2 decimals as well — on subtotal
10.01 at rate 5 the recorded amount is 0.50, not the claimed bare
`subtotal * rate / 100` = 0.5005. -/
theorem deliveryCommission_percentage_rounds :
    deliveryCommOf c6db c6order = some ⟨5, 1 / 2, 5, 1001 / 100⟩
    ∧ (1 / 2 : ℚ) ≠ 1001 / 100 * 5 / 100 := by
  constructor
  · norm_num [deliveryCommOf, c6order, distanceParams, c6db, emptyDB,
      getDeliveryBoyCommissionRate, findDelivery, round2, jsRound, List.find?]
  · norm_num

/-- C6 amended: when distance-based mode is active with a nonzero per-km
rate and a positive delivery distance, the delivery commission is
`distanceKm * perKmRate` rounded to 2 decimals (round half up) and
`orderAmount` is the distance; in every other case the commission is
`subtotal * percentageRate / 100`, also rounded to 2 decimals, with
`orderAmount` the subtotal. -/
theorem deliveryCommission_cases (db : DB) (o : Order) (dbid : Nat)
    (h : o.deliveryBoy = some dbid) :
    (∀ r amt, distanceParams db o = some (r, amt) →
      deliveryCommOf db o = some ⟨dbid, round2 amt, r, o.deliveryDistanceKm.getD 0⟩)
    ∧ (∀ s r d, db.settings = some s → s.isDistanceBased = true →
        s.deliveryBoyKmRate = some r → r ≠ 0 →
        o.deliveryDistanceKm = some d → 0 < d →
        deliveryCommOf db o = some ⟨dbid, round2 (d * r), r, d⟩)
    ∧ (distanceParams db o = none →
        deliveryCommOf db o
          = some ⟨dbid, round2 (o.subtotal * getDeliveryBoyCommissionRate db dbid / 100),
              getDeliveryBoyCommissionRate db dbid, o.subtotal⟩) := by
  refine ⟨?_, ?_, ?_⟩
  · intro r amt hd
    simp [deliveryCommOf, h, hd]
  · intro s r d hset hbase hrate hr0 hdist hdpos
    have hd : distanceParams db o = some (r, d * r) := by
      simp [distanceParams, hset, hbase, hrate, hr0, hdist, hdpos]
    simp [deliveryCommOf, h, hd, hdist]
  · intro hd
    simp [deliveryCommOf, h, hd]

/-- Witness for C6's amended theorem: the spec's example (km rate 10,
distance 7.5) yields commission 75 with `orderAmount` 7.5 on the distance
branch, and the percentage branch of `c6db` yields the rounded 0.50 on
subtotal 10.01 at rate 5. -/
theorem deliveryCommission_cases_witness :
    deliveryCommOf c6wdb c6worder = some ⟨5, 75, 10, 15 / 2⟩
    ∧ deliveryCommOf c6db c6order = some ⟨5, 1 / 2, 5, 1001 / 100⟩ := by
  constructor
  · have h := (deliveryCommission_cases c6wdb c6worder 5 rfl).2.1
      ⟨true, some 10⟩ 10 (15 / 2) rfl rfl rfl (by norm_num) rfl (by norm_num)
    rw [h]
    norm_num [round2, jsRound]
  · have h := (deliveryCommission_cases c6db c6order 5 rfl).2.2
      (by norm_num [distanceParams, c6db, c6order, emptyDB])
    rw [h]
    norm_num [getDeliveryBoyCommissionRate, findDelivery, c6db, c6order,
      emptyDB, List.find?, round2, jsRound, c6order]

/-- C10: for a Pending request, `processWithdrawal` with an action other
than Approve or Reject returns a 200 success result while changing nothing:
the request stays as it was (status Pending), and no wallet balance or
WalletTransaction is created or modified. -/
theorem processWithdrawal_unknown_action (db : DB) (rid : Nat) (action : String)
    (remark : Option String) (req : WithdrawRequest)
    (h1 : findRequest db rid = some req) (h2 : req.status = "Pending")
    (h3 : action ≠ "Approve") (h4 : action ≠ "Reject") :
    (processWithdrawal db rid action remark).1
      = ⟨200, true, "Withdrawal " ++ action ++ "ed successfully"⟩
    ∧ findRequest (processWithdrawal db rid action remark).2 rid = some req
    ∧ (processWithdrawal db rid action remark).2.walletTxns = db.walletTxns
    ∧ (processWithdrawal db rid action remark).2.sellers = db.sellers
    ∧ (processWithdrawal db rid action remark).2.deliveries = db.deliveries
    ∧ (processWithdrawal db rid action remark).2.commissions = db.commissions := by
  have hmain : processWithdrawal db rid action remark
      = (⟨200, true, "Withdrawal " ++ action ++ "ed successfully"⟩,
          saveRequest db req) := by
    simp [processWithdrawal, h1, h2, pwApply, h3, h4]
  refine ⟨by rw [hmain], ?_, by rw [hmain]; rfl, by rw [hmain]; rfl,
    by rw [hmain]; rfl, by rw [hmain]; rfl⟩
  rw [hmain]
  show findRequest (saveRequest db req) rid = some req
  have hr := findRequest_saveRequest db req req rid h1 rfl
  exact hr

/-- C8: rejecting a Pending withdrawal request credits the requester's
wallet with exactly the requested amount — one new Credit WalletTransaction
of that amount and a balance increase of that amount — and sets the request
to Rejected with the given remark and a processedAt stamp, atomically. -/
theorem processWithdrawal_reject_refunds (db : DB) (rid : Nat)
    (remark : Option String) (req : WithdrawRequest)
    (h1 : findRequest db rid = some req) (h2 : req.status = "Pending") :
    (processWithdrawal db rid "Reject" remark).1
      = ⟨200, true, "Withdrawal Rejected successfully"⟩
    ∧ (processWithdrawal db rid "Reject" remark).2.walletTxns
        = db.walletTxns ++ [⟨req.userId, req.userType, req.amount, "Credit",
            "Withdrawal Rejected: " ++ toString req.id⟩]
    ∧ findRequest (processWithdrawal db rid "Reject" remark).2 rid
        = some { req with status := "Rejected", remarks := remark, processedAt := true }
    ∧ (req.userType = "SELLER" → (findSeller db req.userId).isSome = true →
        sellerBalanceOf (processWithdrawal db rid "Reject" remark).2 req.userId
          = sellerBalanceOf db req.userId + req.amount)
    ∧ (req.userType = "DELIVERY_BOY" → (findDelivery db req.userId).isSome = true →
        deliveryBalanceOf (processWithdrawal db rid "Reject" remark).2 req.userId
          = deliveryBalanceOf db req.userId + req.amount) := by
  have happly : pwApply db req "Reject" remark
      = saveRequest (creditWallet db req.userId req.userType req.amount
          ("Withdrawal Rejected: " ++ toString req.id))
          { req with status := "Rejected", remarks := remark, processedAt := true } := by
    simp [pwApply]
  have hmain : processWithdrawal db rid "Reject" remark
      = (⟨200, true, "Withdrawal Rejected successfully"⟩,
          pwApply db req "Reject" remark) := by
    simp [processWithdrawal, h1, h2]
  refine ⟨by rw [hmain], ?_, ?_, ?_, ?_⟩
  · rw [hmain]
    show (pwApply db req "Reject" remark).walletTxns = _
    rw [happly]
    rfl
  · rw [hmain]
    show findRequest (pwApply db req "Reject" remark) rid = _
    rw [happly]
    exact findRequest_saveRequest
      (creditWallet db req.userId req.userType req.amount
        ("Withdrawal Rejected: " ++ toString req.id)) req
      { req with status := "Rejected", remarks := remark, processedAt := true }
      rid h1 rfl
  · intro hty hp
    rw [hmain]
    show sellerBalanceOf (pwApply db req "Reject" remark) req.userId = _
    rw [happly]
    have hsb : sellerBalanceOf (saveRequest (creditWallet db req.userId req.userType
        req.amount ("Withdrawal Rejected: " ++ toString req.id))
        { req with status := "Rejected", remarks := remark, processedAt := true })
        req.userId
        = sellerBalanceOf (creditWallet db req.userId req.userType req.amount
            ("Withdrawal Rejected: " ++ toString req.id)) req.userId := rfl
    rw [hsb, hty]
    exact sellerBalanceOf_credit_self db req.userId req.amount _ hp
  · intro hty hp
    rw [hmain]
    show deliveryBalanceOf (pwApply db req "Reject" remark) req.userId = _
    rw [happly]
    have hdb : deliveryBalanceOf (saveRequest (creditWallet db req.userId req.userType
        req.amount ("Withdrawal Rejected: " ++ toString req.id))
        { req with status := "Rejected", remarks := remark, processedAt := true })
        req.userId
        = deliveryBalanceOf (creditWallet db req.userId req.userType req.amount
            ("Withdrawal Rejected: " ++ toString req.id)) req.userId := rfl
    rw [hdb, hty]
    exact deliveryBalanceOf_credit_self db req.userId req.amount _ hp

/-- C7: the status guard of `processWithdrawal` runs before the transaction
(`pwPrecheck` precedes `mongoose.startSession`) and is never re-evaluated
inside the transactional phase `pwApply`.  Two racing Reject calls that both
read the Pending request from the same state before either commits therefore
both pass the guard and both commit: the 500-rupee request is refunded twice
(balance 1000, two Credit transactions), and both calls report success.
Only a call that starts after the first commit is turned away. -/
theorem processWithdrawal_race_double_refund :
    pwPrecheck c7db 1 = none
    ∧ findRequest c7db 1 = some c7req
    ∧ (processWithdrawal c7db 1 "Reject" none).1.success = true
    ∧ (processWithdrawal c7db 1 "Reject" none).2 = pwApply c7db c7req "Reject" none
    ∧ sellerBalanceOf
        (pwApply (pwApply c7db c7req "Reject" none) c7req "Reject" none) 100 = 1000
    ∧ (pwApply (pwApply c7db c7req "Reject" none) c7req "Reject" none).walletTxns.length = 2
    ∧ (processWithdrawal (pwApply c7db c7req "Reject" none) 1 "Reject" none).1.message
        = "Request is already processed" := by
  refine ⟨?_, ?_, ?_, ?_, ?_, ?_, ?_⟩
  · norm_num [pwPrecheck, findRequest, c7db, emptyDB, List.find?]
  · norm_num [findRequest, c7db, c7req, emptyDB, List.find?]
  · norm_num [processWithdrawal, findRequest, c7db, emptyDB, List.find?]
  · norm_num [processWithdrawal, findRequest, c7db, c7req, emptyDB, List.find?]
  · have hra : ¬ ("Reject" : String) = "Approve" := by decide
    norm_num [pwApply, saveRequest, creditWallet, sellerBalanceOf, findSeller,
      c7db, c7req, emptyDB, List.find?, List.map, hra]
  · have hra : ¬ ("Reject" : String) = "Approve" := by decide
    norm_num [pwApply, saveRequest, creditWallet, c7db, c7req, emptyDB,
      List.map, hra]
  · have hra : ¬ ("Reject" : String) = "Approve" := by decide
    have hrp : ¬ ("Rejected" : String) = "Pending" := by decide
    norm_num [processWithdrawal, pwApply, saveRequest, creditWallet,
      findRequest, c7db, c7req, emptyDB, List.find?, List.map, hra, hrp]

/-- Witness for C10 at a concrete Pending request with the unknown action
Complete. -/
theorem processWithdrawal_unknown_action_witness :
    (processWithdrawal c7db 1 "Complete" none).1
      = ⟨200, true, "Withdrawal Completeed successfully"⟩
    ∧ findRequest (processWithdrawal c7db 1 "Complete" none).2 1 = some c7req
    ∧ (processWithdrawal c7db 1 "Complete" none).2.walletTxns = c7db.walletTxns
    ∧ (processWithdrawal c7db 1 "Complete" none).2.sellers = c7db.sellers := by
  have h := processWithdrawal_unknown_action c7db 1 "Complete" none c7req
    (by norm_num [findRequest, c7db, c7req, emptyDB, List.find?])
    rfl
    (by intro hfalse; simp at hfalse)
    (by intro hfalse; simp at hfalse)
  refine ⟨?_, h.2.1, h.2.2.1, h.2.2.2.1⟩
  rw [h.1]
  rfl

/-- Witness for C8: rejecting the Pending 500-rupee request of seller 100
(balance 10) yields balance 510, one appended Credit transaction of 500,
and a Rejected request with the remark stored. -/
theorem processWithdrawal_reject_refunds_witness :
    (processWithdrawal c8db 2 "Reject" (some "no docs")).1
      = ⟨200, true, "Withdrawal Rejected successfully"⟩
    ∧ (processWithdrawal c8db 2 "Reject" (some "no docs")).2.walletTxns
        = c8db.walletTxns ++ [⟨100, "SELLER", 500, "Credit", "Withdrawal Rejected: 2"⟩]
    ∧ findRequest (processWithdrawal c8db 2 "Reject" (some "no docs")).2 2
        = some ⟨2, 100, "SELLER", 500, "Rejected", some "no docs", true⟩
    ∧ sellerBalanceOf (processWithdrawal c8db 2 "Reject" (some "no docs")).2 100
        = sellerBalanceOf c8db 100 + 500 := by
  have h := processWithdrawal_reject_refunds c8db 2 (some "no docs")
    ⟨2, 100, "SELLER", 500, "Pending", none, false⟩
    (by norm_num [findRequest, c8db, emptyDB, List.find?])
    rfl
  refine ⟨h.1, ?_, ?_, ?_⟩
  · rw [h.2.1]
    rfl
  · rw [h.2.2.1]
  · exact h.2.2.2.1 rfl (by norm_num [findSeller, c8db, emptyDB, List.find?])

/-- C1 amended: `distributeCommissions` fails with the order-not-found,
invalid-state and already-distributed errors exactly as claimed, every
failure leaves the state unchanged (no Commission, WalletTransaction or
balance change persists), and a successful call that created at least one
Commission record makes every subsequent call fail with AlreadyDistributed;
only a degenerate success that created no Commission record (order with no
resolvable items and no delivery partner) can succeed again. -/
theorem distributeCommissions_guarded (db : DB) (oid : Nat) :
    (findOrder db oid = none →
      distributeCommissions db oid = (⟨false, "Order not found"⟩, db))
    ∧ (∀ o, findOrder db oid = some o → o.status ≠ "Delivered" →
        distributeCommissions db oid
          = (⟨false, "Commissions can only be distributed for delivered orders"⟩, db))
    ∧ (∀ o, findOrder db oid = some o → o.status = "Delivered" →
        db.commissions.filter (fun c => c.order == oid) ≠ [] →
        distributeCommissions db oid
          = (⟨false, "Commissions already distributed for this order"⟩, db))
    ∧ ((distributeCommissions db oid).1.success = false →
        (distributeCommissions db oid).2 = db)
    ∧ (∀ res db2, distributeCommissions db oid = (res, db2) → res.success = true →
        db2.commissions.filter (fun c => c.order == oid) ≠ [] →
        distributeCommissions db2 oid
          = (⟨false, "Commissions already distributed for this order"⟩, db2)) := by
  refine ⟨?_, ?_, ?_, ?_, ?_⟩
  · intro h
    simp [distributeCommissions, h]
  · intro o ho hst
    have hst2 : (o.status == "Delivered") = false := by simp [hst]
    simp [distributeCommissions, ho, hst2]
  · intro o ho hst hne
    have hemp : (db.commissions.filter (fun c => c.order == oid)).isEmpty = false := by
      cases hl : db.commissions.filter (fun c => c.order == oid) with
      | nil => exact absurd hl hne
      | cons a l => rfl
    have hst2 : (o.status == "Delivered") = true := by simp [hst]
    simp [distributeCommissions, ho, hst2, hemp]
  · intro hf
    cases ho : findOrder db oid with
    | none => simp [distributeCommissions, ho]
    | some o =>
      by_cases hst : (o.status == "Delivered") = true
      · by_cases hemp : (db.commissions.filter (fun c => c.order == oid)).isEmpty = true
        · simp [distributeCommissions, ho, hst, hemp] at hf
        · have hemp2 : (db.commissions.filter (fun c => c.order == oid)).isEmpty = false := by
            simpa using hemp
          simp [distributeCommissions, ho, hst, hemp2]
      · have hst2 : (o.status == "Delivered") = false := by simpa using hst
        simp [distributeCommissions, ho, hst2]
  · intro res db2 h hsuc hne
    obtain ⟨o, ho, hst, _, hdb2⟩ :=
      distributeCommissions_success_inv db oid res db2 h hsuc
    have horder2 : findOrder db2 oid = some o := by
      rw [hdb2]
      unfold findOrder
      rw [applyDistribution_orders]
      exact ho
    have hemp2 : (db2.commissions.filter (fun c => c.order == oid)).isEmpty = false := by
      cases hl : db2.commissions.filter (fun c => c.order == oid) with
      | nil => exact absurd hl hne
      | cons a l => rfl
    have hst2 : (o.status == "Delivered") = true := by simp [hst]
    simp [distributeCommissions, horder2, hst2, hemp2]

/-- C1 counterexample: a Delivered order with no items and no delivery
partner distributes successfully twice — the second call also succeeds
instead of failing with AlreadyDistributed, refuting "succeeds at most once
per order" for orders whose distribution creates no Commission record. -/
theorem distributeCommissions_twice_on_empty_order :
    (distributeCommissions c1db 1).1.success = true
    ∧ (distributeCommissions (distributeCommissions c1db 1).2 1).1.success = true := by
  constructor <;>
    norm_num [distributeCommissions, findOrder, applyDistribution, calcOrder,
      sellerCommissionsOf, deliveryCommOf, c1db, emptyDB, List.find?]

/-- Witness for C1's amended theorem: each guard exercised at a concrete
store, and a successful distribution that created a Commission record blocks
the second call. -/
theorem distributeCommissions_guarded_witness :
    distributeCommissions emptyDB 1 = (⟨false, "Order not found"⟩, emptyDB)
    ∧ distributeCommissions c1gdb 1
        = (⟨false, "Commissions can only be distributed for delivered orders"⟩, c1gdb)
    ∧ distributeCommissions c1gdb 2
        = (⟨false, "Commissions already distributed for this order"⟩, c1gdb)
    ∧ (distributeCommissions c1gdb 1).2 = c1gdb
    ∧ distributeCommissions (distributeCommissions c2db 1).2 1
        = (⟨false, "Commissions already distributed for this order"⟩,
            (distributeCommissions c2db 1).2) := by
  refine ⟨(distributeCommissions_guarded emptyDB 1).1
      (by norm_num [findOrder, emptyDB, List.find?]), ?_, ?_, ?_, ?_⟩
  · exact (distributeCommissions_guarded c1gdb 1).2.1
      ⟨1, "ORD-1", "Pending", [], none, 0, none⟩
      rfl
      (by decide)
  · exact (distributeCommissions_guarded c1gdb 2).2.2.1
      ⟨2, "ORD-2", "Delivered", [], none, 0, none⟩
      rfl
      rfl
      (by norm_num [c1gdb, emptyDB, List.filter])
  · exact (distributeCommissions_guarded c1gdb 1).2.2.2.1
      (by
        have hpd : ¬ ("Pending" : String) = "Delivered" := by decide
        norm_num [distributeCommissions, findOrder, c1gdb, emptyDB,
          List.find?, hpd])
  · exact (distributeCommissions_guarded c2db 1).2.2.2.2
      (distributeCommissions c2db 1).1 (distributeCommissions c2db 1).2
      rfl
      (by norm_num [distributeCommissions, findOrder, c2db, c2order, emptyDB,
        List.find?])
      (by norm_num [distributeCommissions, findOrder, applyDistribution,
        calcOrder, sellerCommissionsOf, calcStep, addItem, findOrderItem,
        getSellerCommissionRate, findSeller, deliveryCommOf, distanceParams,
        distSellerStep, sellerRecordOf, creditWallet, c2db, c2order, emptyDB,
        List.find?, List.filter])

/-- C5: on every successful `distributeCommissions` call, each seller with a
commission entry is credited `orderAmount - commissionAmount` (net
proceeds), the entry's `orderAmount` is exactly the sum of that seller's
order item totals (and its amount that sum times the resolved rate over
100), so net credited plus commission equals the seller's item-total sum;
the delivery partner is credited the full commission amount. -/
theorem distributeCommissions_credits (db : DB) (oid : Nat) (res : OpResult)
    (db2 : DB) (o : Order)
    (h1 : distributeCommissions db oid = (res, db2)) (h2 : res.success = true)
    (h3 : findOrder db oid = some o) :
    (∀ sid e s,
      (sellerCommissionsOf db o.items).find? (fun p => p.1 == sid) = some (sid, e) →
      findSeller db sid = some s →
      sellerBalanceOf db2 sid = sellerBalanceOf db sid + (e.orderAmount - e.amount)
      ∧ e.orderAmount = sellerItemsTotal db o.items sid
      ∧ e.amount = sellerItemsTotal db o.items sid * getSellerCommissionRate db sid / 100
      ∧ (sellerBalanceOf db2 sid - sellerBalanceOf db sid) + e.amount
          = sellerItemsTotal db o.items sid)
    ∧ (∀ dc dl, deliveryCommOf db o = some dc →
        findDelivery db dc.deliveryBoyId = some dl →
        deliveryBalanceOf db2 dc.deliveryBoyId
          = deliveryBalanceOf db dc.deliveryBoyId + dc.amount) := by
  obtain ⟨o2, ho2, hst, hem, hdb2⟩ :=
    distributeCommissions_success_inv db oid res db2 h1 h2
  have ho : o2 = o := Option.some.inj (ho2.symm.trans h3)
  subst ho
  constructor
  · intro sid e s h4 h5
    have hp : (findSeller db sid).isSome = true := by rw [h5]; rfl
    have hbal : sellerBalanceOf db2 sid
        = sellerBalanceOf db sid + netOf (sellerCommissionsOf db o2.items) sid := by
      rw [hdb2]
      exact applyDistribution_sellerBalance db oid o2 sid hp
    have hnet : netOf (sellerCommissionsOf db o2.items) sid
        = e.orderAmount - e.amount := by
      simp [netOf, h4]
    have hoa : e.orderAmount = sellerItemsTotal db o2.items sid := by
      have hfold := oaOf_fold db o2.items [] sid
      have hl : oaOf (sellerCommissionsOf db o2.items) sid = e.orderAmount := by
        simp [oaOf, h4]
      have hr : oaOf ([] : List (Nat × SellerCommEntry)) sid = 0 := by
        simp [oaOf]
      rw [show List.foldl (calcStep db) [] o2.items = sellerCommissionsOf db o2.items
        from rfl, hl, hr] at hfold
      simpa using hfold
    have hamt : e.amount
        = sellerItemsTotal db o2.items sid * getSellerCommissionRate db sid / 100 := by
      have hfold := amtOf_fold db o2.items [] sid
      have hl : amtOf (sellerCommissionsOf db o2.items) sid = e.amount := by
        simp [amtOf, h4]
      have hr : amtOf ([] : List (Nat × SellerCommEntry)) sid = 0 := by
        simp [amtOf]
      rw [show List.foldl (calcStep db) [] o2.items = sellerCommissionsOf db o2.items
        from rfl, hl, hr] at hfold
      simpa using hfold
    refine ⟨by rw [hbal, hnet], hoa, hamt, ?_⟩
    rw [hbal, hnet, ← hoa]
    ring
  · intro dc dl hdc hdl
    have hp : (findDelivery db dc.deliveryBoyId).isSome = true := by rw [hdl]; rfl
    rw [hdb2]
    exact applyDistribution_deliveryBalance db oid o2 dc hdc hp

/-- Witness for C5 on `c5db`: seller 100 (items 100 and 50, rate 10) is
credited 135 = 150 - 15, the commission 15 equals the item-total sum times
the rate over 100, and delivery partner 200 is credited the full rounded
commission 7.5. -/
theorem distributeCommissions_credits_witness :
    sellerBalanceOf (distributeCommissions c5db 1).2 100
        = sellerBalanceOf c5db 100 + ((150 : ℚ) - 15)
    ∧ (15 : ℚ) = sellerItemsTotal c5db c5order.items 100
        * getSellerCommissionRate c5db 100 / 100
    ∧ deliveryBalanceOf (distributeCommissions c5db 1).2 200
        = deliveryBalanceOf c5db 200 + 15 / 2 := by
  have h := distributeCommissions_credits c5db 1 (distributeCommissions c5db 1).1
    (distributeCommissions c5db 1).2 c5order rfl
    (by norm_num [distributeCommissions, findOrder, c5db, c5order, emptyDB,
      List.find?])
    rfl
  have hs := h.1 100 ⟨15, 10, 150⟩ ⟨100, some 10, some 10, 0⟩
    (by norm_num [sellerCommissionsOf, calcStep, addItem, findOrderItem,
      getSellerCommissionRate, findSeller, c5db, c5order, emptyDB, List.find?])
    rfl
  have hd := h.2 ⟨200, 15 / 2, 5, 150⟩ ⟨200, some 5, 0⟩
    (by norm_num [deliveryCommOf, distanceParams, getDeliveryBoyCommissionRate,
      findDelivery, c5db, c5order, emptyDB, round2, jsRound, List.find?])
    rfl
  exact ⟨hs.1, hs.2.2.1, hd⟩

theorem reverseCommissions_commissions_map (d : DB) (oid : Nat) :
    (reverseCommissions d oid).2.commissions = d.commissions.map (cancelPaid oid) := by
  by_cases hemp : (d.commissions.filter (fun c => c.order == oid)).isEmpty = true
  · rw [reverseCommissions_empty d oid hemp]
    have hnil : d.commissions.filter (fun c => c.order == oid) = [] := by
      simpa using hemp
    have hall : ∀ c ∈ d.commissions, (c.order == oid) = false := by
      intro c hc
      have := List.filter_eq_nil_iff.mp hnil c hc
      simpa using this
    have hid : ∀ (l : List Commission), (∀ c ∈ l, (c.order == oid) = false) →
        l.map (cancelPaid oid) = l := by
      intro l
      induction l with
      | nil => intro _; rfl
      | cons a t ih =>
        intro hl
        simp only [List.map_cons]
        rw [ih (fun c hc => hl c (List.mem_cons_of_mem a hc))]
        have ha := hl a (List.mem_cons_self a t)
        simp [cancelPaid, ha]
    exact (hid d.commissions hall).symm
  · have hemp2 : (d.commissions.filter (fun c => c.order == oid)).isEmpty = false := by
      simpa using hemp
    rw [reverseCommissions_nonempty d oid hemp2]
    simp only [revFold_commissions]

/-- C2 amended: after a successful distribution, `reverseCommissions` sets
every Paid commission of the order to Cancelled and debits each subject by
`commissionAmount`.  The delivery partner's balance is thereby restored
exactly to its pre-distribution value (credit and debit are both the
commission amount), but a seller's balance is NOT restored: the seller was
credited the net proceeds `orderAmount - commissionAmount` yet is debited
only `commissionAmount`, ending at the pre-distribution value plus
`orderAmount - 2 * commissionAmount`. -/
theorem reverseCommissions_after_distribute (db : DB) (oid : Nat)
    (res : OpResult) (db2 : DB) (o : Order)
    (h1 : distributeCommissions db oid = (res, db2)) (h2 : res.success = true)
    (h3 : findOrder db oid = some o) :
    (reverseCommissions db2 oid).2.commissions = db2.commissions.map (cancelPaid oid)
    ∧ (∀ c ∈ db2.commissions, c.order = oid → c.status = "Paid" →
        cancelPaid oid c = { c with status := "Cancelled" })
    ∧ (∀ sid e s,
        (sellerCommissionsOf db o.items).find? (fun p => p.1 == sid) = some (sid, e) →
        findSeller db sid = some s →
        sellerBalanceOf (reverseCommissions db2 oid).2 sid
          = sellerBalanceOf db sid + (e.orderAmount - 2 * e.amount))
    ∧ (∀ dc dl, deliveryCommOf db o = some dc →
        findDelivery db dc.deliveryBoyId = some dl →
        deliveryBalanceOf (reverseCommissions db2 oid).2 dc.deliveryBoyId
          = deliveryBalanceOf db dc.deliveryBoyId) := by
  obtain ⟨o2, ho2, hst, hem, hdb2⟩ :=
    distributeCommissions_success_inv db oid res db2 h1 h2
  have ho : o2 = o := Option.some.inj (ho2.symm.trans h3)
  subst ho
  have hcomm2 : db2.commissions = db.commissions
      ++ (sellerCommissionsOf db o2.items).map (sellerRecordOf oid)
      ++ (match deliveryCommOf db o2 with
          | some dc => [deliveryRecordOf oid dc]
          | none => []) := by
    rw [hdb2]
    exact applyDistribution_commissions db oid o2
  have hfilter : db2.commissions.filter (fun c => c.order == oid)
      = (sellerCommissionsOf db o2.items).map (sellerRecordOf oid)
        ++ (match deliveryCommOf db o2 with
            | some dc => [deliveryRecordOf oid dc]
            | none => []) := by
    rw [hcomm2, List.filter_append, List.filter_append, hem]
    have hsr : ((sellerCommissionsOf db o2.items).map (sellerRecordOf oid)).filter
        (fun c => c.order == oid)
        = (sellerCommissionsOf db o2.items).map (sellerRecordOf oid) := by
      apply List.filter_eq_self.mpr
      intro c hc
      rw [List.mem_map] at hc
      obtain ⟨p, _, hp⟩ := hc
      rw [← hp]
      simp [sellerRecordOf]
    have hdr : (match deliveryCommOf db o2 with
          | some dc => [deliveryRecordOf oid dc]
          | none => []).filter (fun c => c.order == oid)
        = (match deliveryCommOf db o2 with
          | some dc => [deliveryRecordOf oid dc]
          | none => []) := by
      cases hdc : deliveryCommOf db o2 with
      | none => rfl
      | some dc => simp [deliveryRecordOf]
    rw [hsr, hdr]
    simp
  refine ⟨reverseCommissions_commissions_map db2 oid, ?_, ?_, ?_⟩
  · intro c hc hco hcp
    simp [cancelPaid, hco, hcp]
  · intro sid e s h4 h5
    have hp : (findSeller db sid).isSome = true := by rw [h5]; rfl
    have hp2 : (findSeller db2 sid).isSome = true := by
      rw [hdb2, applyDistribution_findSeller_isSome]
      exact hp
    rw [reverseCommissions_sellerBalance db2 oid sid hp2, hfilter]
    have hbal2 : sellerBalanceOf db2 sid
        = sellerBalanceOf db sid + (e.orderAmount - e.amount) := by
      rw [hdb2, applyDistribution_sellerBalance db oid o2 sid hp]
      simp [netOf, h4]
    have hsum1 :
        (((sellerCommissionsOf db o2.items).map (sellerRecordOf oid)).map
          (fun c => revSellerDebit c sid)).sum = e.amount := by
      rw [sum_revSellerDebit_sellerRecords oid sid _
        (nodup_keys_sellerCommissions db o2.items)]
      simp [amtOf, h4]
    have hsum2 :
        ((match deliveryCommOf db o2 with
          | some dc => [deliveryRecordOf oid dc]
          | none => []).map (fun c => revSellerDebit c sid)).sum = 0 := by
      cases hdc : deliveryCommOf db o2 with
      | none => rfl
      | some dc => simp [revSellerDebit_deliveryRecord]
    rw [List.map_append, List.sum_append, hsum1, hsum2, hbal2]
    ring
  · intro dc dl hdc hdl
    have hp : (findDelivery db dc.deliveryBoyId).isSome = true := by rw [hdl]; rfl
    have hp2 : (findDelivery db2 dc.deliveryBoyId).isSome = true := by
      rw [hdb2, applyDistribution_findDelivery_isSome]
      exact hp
    rw [reverseCommissions_deliveryBalance db2 oid dc.deliveryBoyId hp2, hfilter]
    have hbal2 : deliveryBalanceOf db2 dc.deliveryBoyId
        = deliveryBalanceOf db dc.deliveryBoyId + dc.amount := by
      rw [hdb2]
      exact applyDistribution_deliveryBalance db oid o2 dc hdc hp
    have hsum1 :
        (((sellerCommissionsOf db o2.items).map (sellerRecordOf oid)).map
          (fun c => revDeliveryDebit c dc.deliveryBoyId)).sum = 0 :=
      sum_revDeliveryDebit_sellerRecords oid dc.deliveryBoyId _
    have hsum2 :
        ((match deliveryCommOf db o2 with
          | some dc2 => [deliveryRecordOf oid dc2]
          | none => []).map (fun c => revDeliveryDebit c dc.deliveryBoyId)).sum
          = dc.amount := by
      rw [hdc]
      simp [revDeliveryDebit_deliveryRecord]
    rw [List.map_append, List.sum_append, hsum1, hsum2, hbal2]
    ring

/-- C2 counterexample: on `c2db` (one seller item of 100 at rate 10, seller
balance 0) distribution succeeds crediting 90, but the subsequent reversal
debits only the commission 10, leaving the seller balance at 80 instead of
restoring the pre-distribution value 0. -/
theorem reverseCommissions_not_restoring :
    (distributeCommissions c2db 1).1.success = true
    ∧ sellerBalanceOf c2db 100 = 0
    ∧ sellerBalanceOf (reverseCommissions (distributeCommissions c2db 1).2 1).2 100 = 80
    ∧ (80 : ℚ) ≠ 0 := by
  refine ⟨?_, rfl, ?_, by norm_num⟩
  · norm_num [distributeCommissions, findOrder, c2db, c2order, emptyDB, List.find?]
  · norm_num [distributeCommissions, findOrder, findOrderItem, findSeller,
      applyDistribution, calcOrder, sellerCommissionsOf, calcStep, addItem,
      getSellerCommissionRate, deliveryCommOf, distanceParams, distSellerStep,
      sellerRecordOf, creditWallet, reverseCommissions, revStep, cancelPaid,
      reverseSubjectOf, debitWallet, sellerBalanceOf, c2db, c2order, emptyDB,
      List.find?, List.filter]

/-- Witness for C2's amended theorem on `c2wdb`: seller 100 (balance 5) ends
at 5 + (100 - 2 * 10) = 85, delivery partner 200 (balance 7) is restored to
7, and the order's Paid seller commission record is sent to the same record
with status Cancelled. -/
theorem reverseCommissions_after_distribute_witness :
    sellerBalanceOf (reverseCommissions (distributeCommissions c2wdb 1).2 1).2 100
        = sellerBalanceOf c2wdb 100 + ((100 : ℚ) - 2 * 10)
    ∧ deliveryBalanceOf (reverseCommissions (distributeCommissions c2wdb 1).2 1).2 200
        = deliveryBalanceOf c2wdb 200
    ∧ cancelPaid 1 ⟨1, some 100, none, "SELLER", 100, 10, 10, "Paid"⟩
        = ⟨1, some 100, none, "SELLER", 100, 10, 10, "Cancelled"⟩ := by
  have h := reverseCommissions_after_distribute c2wdb 1
    (distributeCommissions c2wdb 1).1 (distributeCommissions c2wdb 1).2 c2worder
    rfl
    (by norm_num [distributeCommissions, findOrder, c2wdb, c2worder, emptyDB,
      List.find?])
    rfl
  refine ⟨?_, ?_, ?_⟩
  · exact h.2.2.1 100 ⟨10, 10, 100⟩ ⟨100, some 10, some 10, 5⟩
      (by norm_num [sellerCommissionsOf, calcStep, addItem, findOrderItem,
        getSellerCommissionRate, findSeller, c2wdb, c2worder, emptyDB,
        List.find?])
      rfl
  · exact h.2.2.2 ⟨200, 5, 5, 100⟩ ⟨200, none, 7⟩
      (by norm_num [deliveryCommOf, distanceParams, getDeliveryBoyCommissionRate,
        findDelivery, c2wdb, c2worder, emptyDB, round2, jsRound, List.find?])
      rfl
  · exact h.2.1 ⟨1, some 100, none, "SELLER", 100, 10, 10, "Paid"⟩
      (by norm_num [distributeCommissions, findOrder, findOrderItem, findSeller,
        applyDistribution, calcOrder, sellerCommissionsOf, calcStep, addItem,
        getSellerCommissionRate, deliveryCommOf, distanceParams,
        getDeliveryBoyCommissionRate, findDelivery, distSellerStep,
        sellerRecordOf, deliveryRecordOf, creditWallet, round2, jsRound,
        c2wdb, c2worder, emptyDB, List.find?])
      rfl rfl

end DS
